import Mathlib

/-! # parse-video: dispatcher, remote fallback, batch parser and the xianyu extractor

A shallow embedding of `parser/parser.go` and `parser/xianyu.go`.

* Go strings are Lean strings; `len(s)` is the UTF-8 byte length.
* A Go result `(*VideoParseInfo, error)` is a pair of options, so that a result with both
  components nil, or both non-nil, stays expressible.
* The registry `videoSourceInfoMapping` is a parameter: a sequence of entries with distinct
  keys, read in the order in which `range` visits the map.
* Calls that leave the dispatcher (an extractor, the HTTP GET of the fallback) are recorded
  in a trace returned next to the result.
* The network and the library `net/url` are a parameter `World`; `encoding/json` and
  `gjson` are modelled on parsed JSON documents.
-/

set_option autoImplicit false

namespace ParseVideo

/-! ## Strings -/

/-- Go `len(s)` for a string: the number of bytes of its UTF-8 encoding. -/
def len (s : String) : Nat := s.utf8ByteSize

/-- Go `strings.HasPrefix`, on character lists. -/
def startsWith : List Char → List Char → Bool
  | _, [] => true
  | [], _ :: _ => false
  | c :: s, p :: ps => decide (c = p) && startsWith s ps

/-- Substring search on character lists: some suffix of the text starts with `sub`. -/
def containsChars : List Char → List Char → Bool
  | [], sub => startsWith [] sub
  | c :: s, sub => startsWith (c :: s) sub || containsChars s sub

/-- Go `strings.Contains(s, substr)`. -/
def stringsContains (s substr : String) : Bool := containsChars s.data substr.data

/-- Go `strings.HasPrefix(s, p)`. -/
def stringsHasPrefix (s p : String) : Bool := startsWith s.data p.data

/-! ## Errors and the data model -/

/-- Errors of `encoding/json`: the text is no JSON value, or a JSON value does not fit the
Go type it is decoded into (`UnmarshalTypeError`, with the JSON kind and the Go type). -/
inductive JsonError
  | malformed
  | unmarshalType (value : String) (goType : String)
  deriving DecidableEq, Repr

/-- Go `error` values: `errors.New` and `fmt.Errorf` without a cause (`text`), `fmt.Errorf`
ending in `%v` of another error (`wrapped`), an error of `encoding/json` (`json`), and an
error handed over by the network or a library (`external`). -/
inductive GoError
  | text (msg : String)
  | wrapped (msg : String) (cause : GoError)
  | json (e : JsonError)
  | external (msg : String)
  deriving DecidableEq, Repr

/-- The anonymous struct `Author` of `KakaDownData` and of `VideoParseInfo`. -/
structure Author where
  Uid : String
  Name : String
  Avatar : String
  deriving DecidableEq, Repr

/-- Modelled from the spec: the declaration of `ImgInfo` is not among the sources; the spec
gives it as `ImgInfo { Url }`. -/
structure ImgInfo where
  Url : String
  deriving DecidableEq, Repr

/-- Modelled from the spec: the declaration of `VideoParseInfo` is not among the sources; the
fields are those of section 3 of the spec, which are also the ones the sources assign. -/
structure VideoParseInfo where
  Author : Author
  Title : String
  VideoUrl : String
  MusicUrl : String
  CoverUrl : String
  Images : List ImgInfo
  deriving DecidableEq, Repr

/-- The zero value of `VideoParseInfo`. -/
def VideoParseInfo.zero : VideoParseInfo :=
  { Author := ⟨"", "", ""⟩, Title := "", VideoUrl := "", MusicUrl := "", CoverUrl := "",
    Images := [] }

/-- A Go result `(*VideoParseInfo, error)`. -/
abbrev Ret := Option VideoParseInfo × Option GoError

/-- Modelled from the spec: the declaration of `BatchParseItem` is not among the sources; the
spec gives it as `{ ParseInfo: VideoParseInfo?, Error: error? }`. -/
structure BatchParseItem where
  ParseInfo : Option VideoParseInfo
  Error : Option GoError
  deriving DecidableEq, Repr

/-- Exactly one of the two components of a batch item is populated. -/
def BatchParseItem.exactlyOne (b : BatchParseItem) : Prop :=
  (b.ParseInfo.isSome ∧ b.Error = none) ∨ (b.ParseInfo = none ∧ b.Error.isSome)

/-- `KakaDownData` of `parser.go`. -/
structure KakaDownData where
  Author : Author
  Title : String
  VideoUrl : String
  MusicUrl : String
  CoverUrl : String
  Images : List String
  deriving DecidableEq, Repr

/-- The zero value of `KakaDownData`. -/
def KakaDownData.zero : KakaDownData :=
  { Author := ⟨"", "", ""⟩, Title := "", VideoUrl := "", MusicUrl := "", CoverUrl := "",
    Images := [] }

/-- `KakaDownResponse` of `parser.go`; `Data` is a pointer, `none` is nil. -/
structure KakaDownResponse where
  Code : Int
  Msg : String
  Data : Option KakaDownData
  deriving DecidableEq, Repr

/-! ## The registry -/

/-- Modelled from the spec: the declaration of the registry entry is not among the sources;
the spec gives it as `{ shareHostPatterns, shareExtractor?, idExtractor? }` and the sources
use the field names below. An extractor is the function of its argument that it computes
during the call under study; `none` is the nil interface. -/
structure VideoSourceInfo where
  VideoShareUrlDomain : List String
  VideoShareUrlParser : Option (String → Ret)
  VideoIdParser : Option (String → Ret)

/-- The zero value of `VideoSourceInfo`, which a Go map yields for a missing key. -/
def VideoSourceInfo.zero : VideoSourceInfo :=
  { VideoShareUrlDomain := [], VideoShareUrlParser := none, VideoIdParser := none }

/-- The map `videoSourceInfoMapping`, as the sequence of its entries in the order in which
`range` visits them; a map has no two entries with the same key. -/
structure Registry where
  entries : List (String × VideoSourceInfo)
  nodup : (entries.map Prod.fst).Nodup

/-- Go `videoSourceInfoMapping[source]`: the entry with that key, or the zero value. -/
def lookupEntries (source : String) : List (String × VideoSourceInfo) → VideoSourceInfo
  | [] => VideoSourceInfo.zero
  | (k, v) :: rest => if k = source then v else lookupEntries source rest

/-- Go `videoSourceInfoMapping[source]`. -/
def Registry.get (reg : Registry) (source : String) : VideoSourceInfo :=
  lookupEntries source reg.entries

/-- What leaves the dispatcher: a call of a share extractor, of an id extractor, or the HTTP
GET of the remote fallback. -/
inductive Call
  | shareUrlParser (source shareUrl : String)
  | idParser (source videoId : String)
  | httpGet (apiURL : String)
  deriving DecidableEq, Repr

/-! ## JSON documents -/

/-- A parsed JSON value. A number keeps its literal as written; the members of an object
keep their order and may repeat a key. -/
inductive Json
  | null
  | bool (b : Bool)
  | num (literal : String)
  | str (s : String)
  | arr (elems : List Json)
  | obj (members : List (String × Json))
  deriving Repr

/-- The word `encoding/json` uses for the kind of a JSON value in an `UnmarshalTypeError`. -/
def Json.kind : Json → String
  | .null => "null"
  | .bool _ => "bool"
  | .num _ => "number"
  | .str _ => "string"
  | .arr _ => "array"
  | .obj _ => "object"

/-- A response body: bytes that are no JSON text, or a JSON document. -/
inductive Body
  | invalid
  | json (doc : Json)
  deriving Repr

/-! ## `encoding/json`: decoding into the structs of `parser.go`

`json.Unmarshal` first checks that the whole input is valid JSON, then stores the value into
the target. Decoding into a struct visits the members of the object in order; a member whose
key names no field is skipped; a value of the wrong kind leaves the field as it is and is
remembered as an error, of which the first one is returned when decoding has finished. Each
decoder below takes the current value of its target and returns the new value together with
the first error met. -/

/-- The folding of `encoding/json` for one character of a key: ASCII letters to upper case,
and the two non-ASCII characters that fold to ASCII letters, the long s and the Kelvin sign. -/
def foldChar (c : Char) : Char :=
  if 'a'.toNat ≤ c.toNat ∧ c.toNat ≤ 'z'.toNat then Char.ofNat (c.toNat - 32)
  else if c.toNat = 0x17F then 'S'
  else if c.toNat = 0x212A then 'K'
  else c

/-- The `foldName` of `encoding/json`, which agrees with the library on every key that is
compared with an ASCII field name. -/
def foldName (key : String) : List Char := key.data.map foldChar

/-- The field of a struct that a key of a JSON object addresses: the field of exactly that
name, else the first field whose name is equal to the key up to case. -/
def fieldOf (names : List String) (key : String) : Option String :=
  match names.find? (fun n => decide (n = key)) with
  | some n => some n
  | none => names.find? (fun n => decide (foldName n = foldName key))

/-- Keeps the first error. -/
def saveError (saved : Option JsonError) (e : JsonError) : Option JsonError :=
  match saved with
  | some e0 => some e0
  | none => some e

/-- Decoding into a Go `string`. -/
def decodeString (cur : String) (saved : Option JsonError) : Json → String × Option JsonError
  | .str s => (s, saved)
  | .null => (cur, saved)
  | j => (cur, saveError saved (.unmarshalType j.kind "string"))

/-- The digits of a decimal numeral, most significant first, as a number. -/
def digitsValue : List Char → Nat → Option Nat
  | [], acc => some acc
  | c :: cs, acc =>
    if '0'.toNat ≤ c.toNat ∧ c.toNat ≤ '9'.toNat then digitsValue cs (acc * 10 + (c.toNat - 48))
    else none

/-- Go `strconv.ParseInt(s, 10, 64)` on the literal of a JSON number: an optional minus sign
and digits, within the range of `int64`. -/
def parseInt64 (literal : String) : Option Int :=
  let signed : Option Int :=
    match literal.data with
    | [] => none
    | '-' :: [] => none
    | '-' :: ds => (digitsValue ds 0).map (fun n => - (n : Int))
    | ds => (digitsValue ds 0).map (fun n => (n : Int))
  match signed with
  | some n => if - (2 : Int) ^ 63 ≤ n ∧ n < (2 : Int) ^ 63 then some n else none
  | none => none

/-- Decoding into a Go `int`. -/
def decodeInt (cur : Int) (saved : Option JsonError) : Json → Int × Option JsonError
  | .num literal =>
    match parseInt64 literal with
    | some n => (n, saved)
    | none => (cur, saveError saved (.unmarshalType ("number " ++ literal) "int"))
  | .null => (cur, saved)
  | j => (cur, saveError saved (.unmarshalType j.kind "int"))

/-- Decoding the elements of a JSON array into the elements of a `[]string`: element `i`
is decoded into the string the slice held at `i`, or into the empty string. -/
def decodeStringElems : List Json → List String → Option JsonError →
    List String × Option JsonError
  | [], _, saved => ([], saved)
  | j :: js, cur, saved =>
    let r := decodeString (cur.headD "") saved j
    let rest := decodeStringElems js cur.tail r.2
    (r.1 :: rest.1, rest.2)

/-- Decoding into a Go `[]string`; a nil slice and an empty slice are both `[]`. -/
def decodeStringSlice (cur : List String) (saved : Option JsonError) :
    Json → List String × Option JsonError
  | .arr elems => decodeStringElems elems cur saved
  | .null => ([], saved)
  | j => (cur, saveError saved (.unmarshalType j.kind "[]string"))

/-- One member of a JSON object decoded into the struct `Author`. -/
def decodeAuthorMember (st : Author × Option JsonError) (kv : String × Json) :
    Author × Option JsonError :=
  match fieldOf ["uid", "name", "avatar"] kv.1 with
  | some "uid" => let r := decodeString st.1.Uid st.2 kv.2; ({ st.1 with Uid := r.1 }, r.2)
  | some "name" => let r := decodeString st.1.Name st.2 kv.2; ({ st.1 with Name := r.1 }, r.2)
  | some "avatar" =>
    let r := decodeString st.1.Avatar st.2 kv.2; ({ st.1 with Avatar := r.1 }, r.2)
  | _ => st

/-- Decoding into the struct `Author`. -/
def decodeAuthor (cur : Author) (saved : Option JsonError) : Json → Author × Option JsonError
  | .obj members => members.foldl decodeAuthorMember (cur, saved)
  | .null => (cur, saved)
  | j => (cur, saveError saved (.unmarshalType j.kind "struct"))

/-- The JSON names of the fields of `KakaDownData`. -/
def dataFields : List String :=
  ["author", "title", "video_url", "music_url", "cover_url", "images"]

/-- One member of a JSON object decoded into `KakaDownData`. -/
def decodeDataMember (st : KakaDownData × Option JsonError) (kv : String × Json) :
    KakaDownData × Option JsonError :=
  match fieldOf dataFields kv.1 with
  | some "author" =>
    let r := decodeAuthor st.1.Author st.2 kv.2; ({ st.1 with Author := r.1 }, r.2)
  | some "title" => let r := decodeString st.1.Title st.2 kv.2; ({ st.1 with Title := r.1 }, r.2)
  | some "video_url" =>
    let r := decodeString st.1.VideoUrl st.2 kv.2; ({ st.1 with VideoUrl := r.1 }, r.2)
  | some "music_url" =>
    let r := decodeString st.1.MusicUrl st.2 kv.2; ({ st.1 with MusicUrl := r.1 }, r.2)
  | some "cover_url" =>
    let r := decodeString st.1.CoverUrl st.2 kv.2; ({ st.1 with CoverUrl := r.1 }, r.2)
  | some "images" =>
    let r := decodeStringSlice st.1.Images st.2 kv.2; ({ st.1 with Images := r.1 }, r.2)
  | _ => st

/-- Decoding into the pointer `*KakaDownData`: JSON null sets the pointer to nil, any other
value allocates the struct when the pointer is nil and is then decoded into it. -/
def decodeDataPtr (cur : Option KakaDownData) (saved : Option JsonError) :
    Json → Option KakaDownData × Option JsonError
  | .null => (none, saved)
  | .obj members =>
    let r := members.foldl decodeDataMember (cur.getD KakaDownData.zero, saved)
    (some r.1, r.2)
  | j => (some (cur.getD KakaDownData.zero), saveError saved (.unmarshalType j.kind "struct"))

/-- One member of a JSON object decoded into `KakaDownResponse`. -/
def decodeResponseMember (st : KakaDownResponse × Option JsonError) (kv : String × Json) :
    KakaDownResponse × Option JsonError :=
  match fieldOf ["code", "msg", "data"] kv.1 with
  | some "code" => let r := decodeInt st.1.Code st.2 kv.2; ({ st.1 with Code := r.1 }, r.2)
  | some "msg" => let r := decodeString st.1.Msg st.2 kv.2; ({ st.1 with Msg := r.1 }, r.2)
  | some "data" => let r := decodeDataPtr st.1.Data st.2 kv.2; ({ st.1 with Data := r.1 }, r.2)
  | _ => st

/-- Go `json.Unmarshal(body, &kakaDownResponse)` on a fresh `KakaDownResponse`: the decoded
value when no error was met, else the first error. -/
def unmarshalKakaDownResponse : Body → Except JsonError KakaDownResponse
  | .invalid => .error .malformed
  | .json doc =>
    let zero : KakaDownResponse := { Code := 0, Msg := "", Data := none }
    let r : KakaDownResponse × Option JsonError :=
      match doc with
      | .obj members => members.foldl decodeResponseMember (zero, none)
      | .null => (zero, none)
      | j => (zero, some (.unmarshalType j.kind "struct"))
    match r.2 with
    | none => .ok r.1
    | some e => .error e

/-- One member of a JSON object decoded into `ImgInfo`. -/
def decodeImgInfoMember (st : ImgInfo × Option JsonError) (kv : String × Json) :
    ImgInfo × Option JsonError :=
  match fieldOf ["url"] kv.1 with
  | some "url" => let r := decodeString st.1.Url st.2 kv.2; ({ st.1 with Url := r.1 }, r.2)
  | _ => st

/-- Decoding into the struct `ImgInfo`. -/
def decodeImgInfo (cur : ImgInfo) (saved : Option JsonError) : Json → ImgInfo × Option JsonError
  | .obj members => members.foldl decodeImgInfoMember (cur, saved)
  | .null => (cur, saved)
  | j => (cur, saveError saved (.unmarshalType j.kind "struct"))

/-- Decoding the elements of a JSON array into the elements of a `[]ImgInfo`. -/
def decodeImgInfoElems : List Json → List ImgInfo → Option JsonError →
    List ImgInfo × Option JsonError
  | [], _, saved => ([], saved)
  | j :: js, cur, saved =>
    let r := decodeImgInfo (cur.headD ⟨""⟩) saved j
    let rest := decodeImgInfoElems js cur.tail r.2
    (r.1 :: rest.1, rest.2)

/-- Decoding into a Go `[]ImgInfo`. -/
def decodeImgInfoSlice (cur : List ImgInfo) (saved : Option JsonError) :
    Json → List ImgInfo × Option JsonError
  | .arr elems => decodeImgInfoElems elems cur saved
  | .null => ([], saved)
  | j => (cur, saveError saved (.unmarshalType j.kind "[]ImgInfo"))

/-- One member of a JSON object decoded into `VideoParseInfo`. -/
def decodeVideoInfoMember (st : VideoParseInfo × Option JsonError) (kv : String × Json) :
    VideoParseInfo × Option JsonError :=
  match fieldOf dataFields kv.1 with
  | some "author" =>
    let r := decodeAuthor st.1.Author st.2 kv.2; ({ st.1 with Author := r.1 }, r.2)
  | some "title" => let r := decodeString st.1.Title st.2 kv.2; ({ st.1 with Title := r.1 }, r.2)
  | some "video_url" =>
    let r := decodeString st.1.VideoUrl st.2 kv.2; ({ st.1 with VideoUrl := r.1 }, r.2)
  | some "music_url" =>
    let r := decodeString st.1.MusicUrl st.2 kv.2; ({ st.1 with MusicUrl := r.1 }, r.2)
  | some "cover_url" =>
    let r := decodeString st.1.CoverUrl st.2 kv.2; ({ st.1 with CoverUrl := r.1 }, r.2)
  | some "images" =>
    let r := decodeImgInfoSlice st.1.Images st.2 kv.2; ({ st.1 with Images := r.1 }, r.2)
  | _ => st

/-- Modelled from the spec: the declaration of `VideoParseInfo`, with its JSON field names,
is not among the sources. Go `json.Unmarshal(body, &videoInfo)` on a fresh `VideoParseInfo`,
whose JSON names are taken to be those of `KakaDownData`, an image being an object with the
key `url`. -/
def unmarshalVideoParseInfo : Body → Except JsonError VideoParseInfo
  | .invalid => .error .malformed
  | .json doc =>
    let r : VideoParseInfo × Option JsonError :=
      match doc with
      | .obj members => members.foldl decodeVideoInfoMember (VideoParseInfo.zero, none)
      | .null => (VideoParseInfo.zero, none)
      | j => (VideoParseInfo.zero, some (.unmarshalType j.kind "struct"))
    match r.2 with
    | none => .ok r.1
    | some e => .error e

/-! ## The world outside the program -/

/-- The outcome of `http.Get` followed by `ioutil.ReadAll`. -/
inductive HttpReply
  | getError (e : GoError)
  | readError (e : GoError)
  | body (b : Body)

/-- What the program meets outside itself during one call: the answer of the fallback
service to a GET, the answers met by the xianyu extractor (the text of the landing page of a
share URL; the JSON document the item API returns for a request body), and the library call
`url.Parse(itemUrl)` followed by `Query().Get("id")`, which is not modelled. -/
structure World where
  httpGet : String → HttpReply
  restyGet : String → Except GoError String
  restyPost : String → String → Except GoError Json
  urlQueryId : String → Except GoError String

/-- An upper-case hexadecimal digit. -/
def hexDigit (n : Nat) : Char :=
  if n < 10 then Char.ofNat (48 + n) else Char.ofNat (55 + n)

/-- Go `url.QueryEscape` for one byte: letters, digits and `-_.~` stay, a space becomes `+`,
every other byte becomes `%XX`. -/
def escapeByte (b : UInt8) : List Char :=
  let n := b.toNat
  if (48 ≤ n ∧ n ≤ 57) ∨ (65 ≤ n ∧ n ≤ 90) ∨ (97 ≤ n ∧ n ≤ 122) ∨
      n = 45 ∨ n = 95 ∨ n = 46 ∨ n = 126 then [Char.ofNat n]
  else if n = 32 then ['+']
  else ['%', hexDigit (n / 16), hexDigit (n % 16)]

/-- Go `url.QueryEscape`. -/
def QueryEscape (s : String) : String :=
  String.mk ((s.data.flatMap String.utf8EncodeChar).flatMap escapeByte)

/-! ## `parser.go` -/

/-- The inner loop of `ParseVideoShareUrl` (lines 50 to 55): the first domain that occurs in
the URL assigns `itemSource` to `source` and leaves the loop. -/
def scanDomains (shareUrl itemSource : String) : List String → String → String
  | [], source => source
  | itemUrlDomain :: rest, source =>
    if stringsContains shareUrl itemUrlDomain then itemSource
    else scanDomains shareUrl itemSource rest source

/-- The outer loop of `ParseVideoShareUrl` (lines 49 to 59): after the domains of an entry
have been scanned, the loop is left when `source` is not empty. -/
def scanSources (shareUrl : String) : List (String × VideoSourceInfo) → String → String
  | [], source => source
  | (itemSource, itemSourceInfo) :: rest, source =>
    let source := scanDomains shareUrl itemSource itemSourceInfo.VideoShareUrlDomain source
    if len source > 0 then source else scanSources shareUrl rest source

/-- Lines 66 to 104 of `ParseVideoShareUrl`: what the fallback branch makes of the reply of
the service. -/
def kakadownResult : HttpReply → Ret
  | .getError err => (none, some (.wrapped "error making request to kakadown: " err))
  | .readError err => (none, some (.wrapped "error reading response body from kakadown: " err))
  | .body body =>
    match unmarshalKakaDownResponse body with
    | .error err =>
      match unmarshalVideoParseInfo body with
      | .error _ =>
        (none, some (.wrapped "error unmarshalling response from kakadown: " (.json err)))
      | .ok videoInfo => (some videoInfo, none)
    | .ok kakaDownResponse =>
      match kakaDownResponse.Data with
      | some data =>
        (some { Title := data.Title, VideoUrl := data.VideoUrl, MusicUrl := data.MusicUrl,
                CoverUrl := data.CoverUrl,
                Images := data.Images.map (fun img => ({ Url := img } : ImgInfo)),
                Author := { Uid := data.Author.Uid, Name := data.Author.Name,
                            Avatar := data.Author.Avatar } }, none)
      | none => (none, some (.text "kakadown response data is nil"))

/-- The URL of the fallback service for a share URL (line 64). -/
def kakadownURL (shareUrl : String) : String :=
  "https://kakadown.com/video/share/url/parse?url=" ++ QueryEscape shareUrl

/-- `ParseVideoShareUrl` of `parser.go`: the result and the calls made. -/
def ParseVideoShareUrl (w : World) (reg : Registry) (shareUrl : String) : Ret × List Call :=
  let source := scanSources shareUrl reg.entries ""
  if len source ≤ 0 then
    let apiURL := kakadownURL shareUrl
    (kakadownResult (w.httpGet apiURL), [Call.httpGet apiURL])
  else
    match (reg.get source).VideoShareUrlParser with
    | none => ((none, some (.text ("source " ++ source ++ " has no video share url parser"))), [])
    | some urlParser => (urlParser shareUrl, [Call.shareUrlParser source shareUrl])

/-- `ParseVideoId` of `parser.go`: the result and the calls made. -/
def ParseVideoId (reg : Registry) (source videoId : String) : Ret × List Call :=
  if len videoId ≤ 0 ∨ len source ≤ 0 then
    ((none, some (.text "video id or source is empty")), [])
  else
    match (reg.get source).VideoIdParser with
    | none => ((none, some (.text ("source " ++ source ++ " has no video id parser"))), [])
    | some idParser => (idParser videoId, [Call.idParser source videoId])

/-- A Go `map[string]BatchParseItem`. -/
abbrev ParseMap := String → Option BatchParseItem

/-- The statement `parseMap[videoId] = item`. -/
def ParseMap.set (m : ParseMap) (videoId : String) (item : BatchParseItem) : ParseMap :=
  fun k => if k = videoId then some item else m k

/-- An order in which the goroutines of `BatchParseVideoId` take the mutex: one turn for
each element of `videoIds`. -/
abbrev Schedule (videoIds : List String) := { order : List String // order.Perm videoIds }

/-- The goroutines of `BatchParseVideoId` (lines 147 to 157), one after the other in the
order of a schedule: each calls `ParseVideoId` and stores both components of its result
under its id. The trace lists the calls of the goroutines in that same order. -/
def runWorkers (reg : Registry) (source : String) :
    List String → ParseMap × List Call → ParseMap × List Call
  | [], st => st
  | videoId :: rest, st =>
    let r := ParseVideoId reg source videoId
    runWorkers reg source rest
      (st.1.set videoId { ParseInfo := r.1.1, Error := r.1.2 }, st.2 ++ r.2)

/-- `BatchParseVideoId` of `parser.go`: the map, the error and the calls made. -/
def BatchParseVideoId (reg : Registry) (source : String) (videoIds : List String)
    (sched : Schedule videoIds) : (Option ParseMap × Option GoError) × List Call :=
  if videoIds.length ≤ 0 ∨ len source ≤ 0 then
    ((none, some (.text "videos id or source is empty")), [])
  else
    match (reg.get source).VideoIdParser with
    | none => ((none, some (.text ("source " ++ source ++ " has no video id parser"))), [])
    | some _ =>
      let st := runWorkers reg source sched.val (fun _ => none, [])
      ((some st.1, none), st.2)

/-! ## `gjson` on JSON documents

`gjson` reads the bytes of the response; here the response is a JSON document. A path is
the list of the parts that the dots of the source's path separate; none of the paths of
`xianyu.go` holds a wildcard, a modifier or an escape. -/

/-- A `gjson.Result`: `none` is the result of a path that leads nowhere. -/
abbrev Result := Option Json

/-- The text in quotes, with the quote and the backslash escaped. -/
def renderString (s : String) : String :=
  "\"" ++ String.mk (s.data.flatMap (fun c =>
    if c = '"' then ['\\', '"'] else if c = '\\' then ['\\', '\\'] else [c])) ++ "\""

mutual
/-- A text of a JSON value: no white space between its tokens, and in a string only the
quote and the backslash escaped. The bytes of a response may space and escape the same value
otherwise; the rendering is empty for no value. -/
def Json.render : Json → String
  | .null => "null"
  | .bool b => if b then "true" else "false"
  | .num literal => literal
  | .str s => renderString s
  | .arr elems => "[" ++ renderElems elems ++ "]"
  | .obj members => "\x7b" ++ renderMembers members ++ "\x7d"
/-- The elements of an array, separated by commas. -/
def renderElems : List Json → String
  | [] => ""
  | [j] => j.render
  | j :: rest => j.render ++ "," ++ renderElems rest
/-- The members of an object, separated by commas. -/
def renderMembers : List (String × Json) → String
  | [] => ""
  | [(k, v)] => renderString k ++ ":" ++ v.render
  | (k, v) :: rest => renderString k ++ ":" ++ v.render ++ "," ++ renderMembers rest
end

/-- The method `Exists` of `gjson.Result`. -/
def Result.Exists (r : Result) : Bool := r.isSome

/-- The method `Array` of `gjson.Result`: the elements of an array, nothing for null and for
a missing value, and the value itself as the only element otherwise. -/
def Result.Array : Result → List Result
  | none => []
  | some .null => []
  | some (.arr elems) => elems.map some
  | some j => [some j]

/-- The index that a part of a path names in an array (`parseUint` of `gjson`, then the
conversion to `int`): digits only. -/
def arrayIndex (part : String) : Option Nat :=
  match part.data with
  | [] => none
  | ds =>
    match digitsValue ds 0 with
    | some n => if n % 2 ^ 64 < 2 ^ 63 then some (n % 2 ^ 64) else none
    | none => none

/-- The function `Get` of `gjson` on a value: in an object, the members are tried in order,
and a member is taken when its key is the first part of the path and the rest of the path
leads somewhere inside its value; in an array, the first part is an index. -/
def gjsonGet : List String → Json → Result
  | [], _ => none
  | part :: rest, .obj members =>
    members.findSome? (fun kv =>
      if kv.1 = part then (if rest.isEmpty then some kv.2 else gjsonGet rest kv.2) else none)
  | part :: rest, .arr elems =>
    match arrayIndex part with
    | some n =>
      match elems.get? n with
      | some v => if rest.isEmpty then some v else gjsonGet rest v
      | none => none
    | none => none
  | _ :: _, _ => none

/-- The method `Get` of `gjson.Result`. -/
def Result.Get (r : Result) (path : List String) : Result :=
  match r with
  | none => none
  | some j => gjsonGet path j

/-- The method `String` of `gjson.Result`: the text of a string, the words `true` and
`false`, nothing for null and for a missing value. For an array or an object the source
yields the bytes of the value as they stand in the response, for a number its literal when
that is a whole number and the shortest decimal of its value otherwise; the model yields the
rendering of the array or object and the literal of the number. -/
def Result.String : Result → String
  | none => ""
  | some .null => ""
  | some (.bool b) => if b then "true" else "false"
  | some (.num literal) => literal
  | some (.str s) => s
  | some (.arr elems) => (Json.arr elems).render
  | some (.obj members) => (Json.obj members).render

/-! ## `xianyu.go` -/

/-- `xianyu.parseVideoID` of `xianyu.go`. -/
def xianyu.parseVideoID (_videoId : String) : Ret :=
  (none, some (.text "not implemented"))

/-- The loops of lines 93 to 98 and 104 to 109: the text under `key` of each element, when
it is not empty, is appended to `images`. -/
def appendImages (key : String) : List Result → List ImgInfo → List ImgInfo
  | [], images => images
  | img :: rest, images =>
    let imgURL := Result.String (Result.Get img [key])
    if imgURL ≠ "" then appendImages key rest (images ++ [{ Url := imgURL }])
    else appendImages key rest images

/-- The body of the request to the item API (line 56). -/
def itemRequestBody (itemId : String) : String :=
  "data=\x7b\"itemId\":\"" ++ itemId ++ "\"\x7d"

/-- The URL of the item API (line 55). -/
def itemApiURL : String := "https://h5api.m.goofish.com/h5/mtop.taobao.idle.pc.detail/1.0/"

/-- `xianyu.parseItemUrl` of `xianyu.go`. -/
def xianyu.parseItemUrl (w : World) (itemUrl : String) : Ret :=
  match w.urlQueryId itemUrl with
  | .error err => (none, some err)
  | .ok itemId =>
    if itemId = "" then (none, some (.text "item ID not found in URL"))
    else
      match w.restyPost itemApiURL (itemRequestBody itemId) with
      | .error err => (none, some err)
      | .ok doc =>
        let data : Result := some doc
        if !stringsHasPrefix (Result.String (Result.Get data ["ret", "0"])) "SUCCESS" then
          (none, some (.text ("API error: " ++ Result.String (Result.Get data ["ret", "0"]))))
        else
          let itemDO := Result.Get data ["data", "itemDO"]
          if !Result.Exists itemDO then
            (none, some (.text "item data not found in API response"))
          else
            let title := Result.String (Result.Get itemDO ["title"])
            let sellerDO := Result.Get data ["data", "sellerDO"]
            let author : Author :=
              if Result.Exists sellerDO then
                { Uid := "", Name := Result.String (Result.Get sellerDO ["nick"]),
                  Avatar := Result.String (Result.Get sellerDO ["portraitUrl"]) }
              else { Uid := "", Name := "", Avatar := "" }
            let imageInfos := Result.Array (Result.Get itemDO ["imageInfos"])
            let images := appendImages "url" imageInfos []
            let images :=
              if images.length = 0 then
                let shareImages := Result.Array
                  (Result.Get itemDO ["shareData", "contentParams", "mainParams", "images"])
                appendImages "image" shareImages images
              else images
            if images.length = 0 then (none, some (.text "no images found for this item"))
            else
              (some { Title := title, Author := author, VideoUrl := "", MusicUrl := "",
                      CoverUrl := "", Images := images }, none)

/-- The shortest run of characters other than the line feed that is followed by `';`
(the group `(.*?)` and the end of the pattern of line 29). -/
def lazyGroup : List Char → List Char → Option (List Char)
  | [], _ => none
  | c :: cs, acc =>
    if startsWith (c :: cs) ['\'', ';'] then some acc.reverse
    else if c = '\n' then none
    else lazyGroup cs (c :: acc)

/-- The group 1 of the leftmost match of the pattern `var url = '(.*?)';` (Go
`regexp.FindStringSubmatch`, lines 29 to 35), if the pattern matches. -/
def findFinalUrl : List Char → Option String
  | [] => none
  | c :: cs =>
    let here :=
      if startsWith (c :: cs) "var url = '".data then lazyGroup ((c :: cs).drop 11) []
      else none
    match here with
    | some group => some (String.mk group)
    | none => findFinalUrl cs

/-- `xianyu.parseShareUrl` of `xianyu.go`. -/
def xianyu.parseShareUrl (w : World) (shareUrl : String) : Ret :=
  match w.restyGet shareUrl with
  | .error err => (none, some err)
  | .ok body =>
    match findFinalUrl body.data with
    | none => (none, some (.text "could not find final URL in JavaScript variable"))
    | some finalUrl =>
      if !stringsContains finalUrl "goofish.com" then
        (none, some (.text ("not a goofish.com url: " ++ finalUrl)))
      else xianyu.parseItemUrl w finalUrl

/-- The registry entry of the source `xianyu`: both extractors are the `xianyu` value.
Modelled from the spec: the registry is not among the sources; the host pattern is a
parameter. -/
def xianyuInfo (w : World) (domains : List String) : VideoSourceInfo :=
  { VideoShareUrlDomain := domains,
    VideoShareUrlParser := some (xianyu.parseShareUrl w),
    VideoIdParser := some xianyu.parseVideoID }

/-! ## Properties of the specification -/

/-- A host pattern of the entry occurs in the share URL as a substring. -/
def hostPatternOccurs (shareUrl : String) (info : VideoSourceInfo) : Prop :=
  ∃ d ∈ info.VideoShareUrlDomain, d.data <:+: shareUrl.data

/-- The source has no id extractor: no entry carries the key, or the entry of the key has a
nil id extractor. -/
def noIdParser (reg : Registry) (source : String) : Prop :=
  (∀ e ∈ reg.entries, e.1 ≠ source) ∨
    ∃ info, (source, info) ∈ reg.entries ∧ info.VideoIdParser = none

/-- The pair that an extractor returns has exactly one component populated. -/
def Ret.exactlyOne (r : Ret) : Prop :=
  (r.1.isSome ∧ r.2 = none) ∨ (r.1 = none ∧ r.2.isSome)

/-! ## Worlds and registries used as concrete inputs -/

/-- An extractor that answers every argument with the zero record. -/
def zeroExtractor : String → Ret := fun _ => (some VideoParseInfo.zero, none)

/-- A world without network: every request fails. -/
def offline : World :=
  { httpGet := fun _ => .getError (.external "no network"),
    restyGet := fun _ => .error (.external "no network"),
    restyPost := fun _ _ => .error (.external "no network"),
    urlQueryId := fun _ => .error (.external "no network") }

/-- A registry with the sources `douyin` and `xianyu`, in that order. -/
def sampleRegistry (w : World) : Registry :=
  { entries := [("douyin", { VideoShareUrlDomain := ["v.douyin.com", "www.iesdouyin.com"],
                             VideoShareUrlParser := some zeroExtractor,
                             VideoIdParser := some zeroExtractor }),
                ("xianyu", xianyuInfo w ["m.tb.cn", "douyin"])],
    nodup := by simp }

/-- The item that a goroutine of `BatchParseVideoId` stores for an id. -/
def itemOf (reg : Registry) (source videoId : String) : BatchParseItem :=
  { ParseInfo := (ParseVideoId reg source videoId).1.1,
    Error := (ParseVideoId reg source videoId).1.2 }

/-- The ids `a`, the empty id and `c`, written in the order `c`, `a`, empty. -/
def sampleSchedule : Schedule ["a", "", "c"] :=
  ⟨["c", "a", ""], by decide⟩

/-- The registry without entries. -/
def emptyRegistry : Registry := { entries := [], nodup := by simp }

/-- A world in which the fallback service answers every GET with the given body. -/
def serviceWorld (body : Body) : World :=
  { offline with httpGet := fun _ => .body body }

/-- The body of the second scenario of the spec: an envelope with data. -/
def envelopeBody : Body :=
  .json (.obj [("code", .num "0"), ("msg", .str ""),
    ("data", .obj [("author", .obj [("uid", .str "u1"), ("name", .str "N"), ("avatar", .str "a")]),
      ("title", .str "T"), ("video_url", .str "v"), ("music_url", .str "m"),
      ("cover_url", .str "c"), ("images", .arr [.str "i1", .str "i2"])])])

/-- The body `{"code":0,"msg":"ok","data":{}}`: an envelope whose data has no member. -/
def emptyDataBody : Body :=
  .json (.obj [("code", .num "0"), ("msg", .str "ok"), ("data", .obj [])])

/-- The body `{"code":0,"msg":"ok","data":null}`. -/
def nullDataBody : Body :=
  .json (.obj [("code", .num "0"), ("msg", .str "ok"), ("data", .null)])

/-- The body `{"code":404,"msg":"not found","data":null}` of the third scenario of the
spec. -/
def notFoundBody : Body :=
  .json (.obj [("code", .num "404"), ("msg", .str "not found"), ("data", .null)])

/-- A body of the legacy service: a `VideoParseInfo` written as JSON, without envelope. -/
def legacyBody : Body :=
  .json (.obj [("author", .obj [("uid", .str "u1"), ("name", .str "N"), ("avatar", .str "a")]),
    ("title", .str "T"), ("video_url", .str "v"), ("music_url", .str "m"),
    ("cover_url", .str "c"),
    ("images", .arr [.obj [("url", .str "i1")], .obj [("url", .str "i2")]])])

/-- The record that `legacyBody` writes. -/
def legacyRecord : VideoParseInfo :=
  { Author := ⟨"u1", "N", "a"⟩, Title := "T", VideoUrl := "v", MusicUrl := "m", CoverUrl := "c",
    Images := [⟨"i1"⟩, ⟨"i2"⟩] }

/-- The data that `envelopeBody` writes. -/
def envelopeData : KakaDownData :=
  { Author := ⟨"u1", "N", "a"⟩, Title := "T", VideoUrl := "v", MusicUrl := "m", CoverUrl := "c",
    Images := ["i1", "i2"] }

/-- The texts under `key` of the elements of a list, in their order, the empty ones left
out. -/
def textsOf (key : String) (elems : List Result) : List String :=
  (elems.map (fun img => Result.String (Result.Get img [key]))).filter
    (fun s => decide (s ≠ ""))

/-- A world in which the landing page of every share URL names the item 42 of goofish.com
and the item API answers with the given document. -/
def itemWorld (doc : Json) : World :=
  { offline with
    restyGet := fun _ => .ok "<script>\nvar url = 'https://www.goofish.com/item?id=42';\n</script>",
    restyPost := fun _ _ => .ok doc,
    urlQueryId := fun itemUrl =>
      if itemUrl = "https://www.goofish.com/item?id=42" then .ok "42"
      else .error (.external "no such item") }

/-- The `itemDO` of the fifth scenario of the spec: the second of three image infos has an
empty url. -/
def scenarioItemDO : Json :=
  .obj [("title", .str "X"),
    ("imageInfos", .arr [.obj [("url", .str "https://i/1")], .obj [("url", .str "")],
      .obj [("url", .str "https://i/2")]])]

/-- The answer of the item API in the fifth scenario of the spec. -/
def scenarioItemDoc : Json :=
  .obj [("ret", .arr [.str "SUCCESS::ok"]),
    ("data", .obj [("itemDO", scenarioItemDO),
      ("sellerDO", .obj [("nick", .str "S"), ("portraitUrl", .str "p")])])]

/-- The answer of the item API when `imageInfos` is empty and the share data holds two
images, of which the first has an empty text. -/
def shareImagesDoc : Json :=
  .obj [("ret", .arr [.str "SUCCESS::ok"]),
    ("data", .obj [("itemDO", .obj [("title", .str "X"), ("imageInfos", .arr []),
      ("shareData", .obj [("contentParams", .obj [("mainParams", .obj [("images",
        .arr [.obj [("image", .str "")], .obj [("image", .str "https://s/1")]])])])])])])]

/-- The record of the fifth scenario of the spec. -/
def scenarioRecord : VideoParseInfo :=
  { Title := "X", Author := ⟨"", "S", "p"⟩, VideoUrl := "", MusicUrl := "", CoverUrl := "",
    Images := [⟨"https://i/1"⟩, ⟨"https://i/2"⟩] }

/-- The record of the second scenario of the spec. -/
def envelopeRecord : VideoParseInfo :=
  { Title := "T", Author := ⟨"u1", "N", "a"⟩, VideoUrl := "v", MusicUrl := "m", CoverUrl := "c",
    Images := [⟨"i1"⟩, ⟨"i2"⟩] }

/-- An id extractor in the manner of the sixth scenario of the spec: it fails on the id `b`
and returns a record on every other id. -/
def scenarioExtractor : String → Ret := fun videoId =>
  if videoId = "b" then (none, some (.text "extraction failed"))
  else (some { VideoParseInfo.zero with Title := videoId, VideoUrl := "https://v/" ++ videoId },
        none)

/-- A registry with the single source `src`, whose id extractor is `scenarioExtractor`. -/
def scenarioRegistry : Registry :=
  { entries := [("src", { VideoShareUrlDomain := ["src.test"],
                          VideoShareUrlParser := none,
                          VideoIdParser := some scenarioExtractor })],
    nodup := by simp }

/-- The ids `a`, `b` and `c`, written in the order `b`, `c`, `a`. -/
def scenarioSchedule : Schedule ["a", "b", "c"] :=
  ⟨["b", "c", "a"], by decide⟩

/-- An id extractor that returns neither a record nor an error on the id `a`, and both a
record and an error on every other id. -/
def looseExtractor : String → Ret := fun videoId =>
  if videoId = "a" then (none, none)
  else (some VideoParseInfo.zero, some (.text "incomplete"))

/-- A registry with the single source `src`, whose id extractor is `looseExtractor`. -/
def looseRegistry : Registry :=
  { entries := [("src", { VideoShareUrlDomain := ["src.test"],
                          VideoShareUrlParser := none,
                          VideoIdParser := some looseExtractor })],
    nodup := by simp }

/-- The ids `a` and `b`, written in that order. -/
def looseSchedule : Schedule ["a", "b"] :=
  ⟨["a", "b"], List.Perm.refl _⟩

/-! # Theorems -/

/-! ## Lemmas on strings -/

theorem utf8ByteSize_go_eq_zero (cs : List Char) :
    String.utf8ByteSize.go cs = 0 ↔ cs = [] := by
  cases cs with
  | nil => simp [String.utf8ByteSize.go]
  | cons c cs =>
    have h := Char.utf8Size_pos c
    simp [String.utf8ByteSize.go]
    omega

theorem len_eq_zero_iff (s : String) : len s = 0 ↔ s = "" := by
  cases s with
  | mk cs =>
    show String.utf8ByteSize.go cs = 0 ↔ _
    rw [utf8ByteSize_go_eq_zero]
    constructor
    · intro h; subst h; rfl
    · intro h; exact congrArg String.data h

theorem len_le_zero_iff (s : String) : len s ≤ 0 ↔ s = "" := by
  rw [Nat.le_zero, len_eq_zero_iff]

theorem len_pos_iff (s : String) : len s > 0 ↔ s ≠ "" := by
  rw [gt_iff_lt, Nat.pos_iff_ne_zero, Ne, len_eq_zero_iff]

theorem startsWith_iff (s p : List Char) : startsWith s p = true ↔ p <+: s := by
  induction p generalizing s with
  | nil => cases s <;> simp [startsWith]
  | cons a p ih =>
    cases s with
    | nil => simp [startsWith]
    | cons c s =>
      simp only [startsWith, Bool.and_eq_true, decide_eq_true_eq, ih, List.cons_prefix_cons]
      constructor
      · rintro ⟨h, h2⟩; exact ⟨h.symm, h2⟩
      · rintro ⟨h, h2⟩; exact ⟨h.symm, h2⟩

theorem containsChars_iff (s sub : List Char) : containsChars s sub = true ↔ sub <:+: s := by
  induction s with
  | nil =>
    simp only [containsChars, startsWith_iff]
    constructor
    · intro h; exact h.isInfix
    · intro h
      have := List.eq_nil_of_infix_nil h
      subst this; exact List.prefix_refl _
  | cons c s ih =>
    simp only [containsChars, Bool.or_eq_true, startsWith_iff, ih, List.infix_cons_iff]

/-- Go `strings.Contains` in the model is the substring relation on the characters. -/
theorem stringsContains_iff (s substr : String) :
    stringsContains s substr = true ↔ substr.data <:+: s.data :=
  containsChars_iff _ _

/-! ## Lemmas on source resolution -/

theorem scanDomains_of_occurs (shareUrl itemSource : String) (ds : List String)
    (source : String) (h : ∃ d ∈ ds, d.data <:+: shareUrl.data) :
    scanDomains shareUrl itemSource ds source = itemSource := by
  induction ds with
  | nil => simp at h
  | cons d ds ih =>
    unfold scanDomains
    by_cases hd : stringsContains shareUrl d = true
    · simp [hd]
    · simp only [hd]
      apply ih
      obtain ⟨x, hx, hxo⟩ := h
      rcases List.mem_cons.mp hx with rfl | hx
      · exact absurd ((stringsContains_iff _ _).mpr hxo) hd
      · exact ⟨x, hx, hxo⟩

theorem scanDomains_of_not_occurs (shareUrl itemSource : String) (ds : List String)
    (source : String) (h : ¬ ∃ d ∈ ds, d.data <:+: shareUrl.data) :
    scanDomains shareUrl itemSource ds source = source := by
  induction ds with
  | nil => rfl
  | cons d ds ih =>
    unfold scanDomains
    have hd : ¬ stringsContains shareUrl d = true := fun hc =>
      h ⟨d, List.mem_cons_self _ _, (stringsContains_iff _ _).mp hc⟩
    simp only [hd]
    apply ih
    rintro ⟨x, hx, hxo⟩
    exact h ⟨x, List.mem_cons_of_mem _ hx, hxo⟩

/-- When no entry has a pattern in the URL, the scan ends with the empty source. -/
theorem scanSources_none (shareUrl : String) (entries : List (String × VideoSourceInfo))
    (h : ∀ e ∈ entries, ¬ hostPatternOccurs shareUrl e.2) :
    scanSources shareUrl entries "" = "" := by
  induction entries with
  | nil => rfl
  | cons e rest ih =>
    obtain ⟨k, info⟩ := e
    unfold scanSources
    have h0 : scanDomains shareUrl k info.VideoShareUrlDomain "" = "" :=
      scanDomains_of_not_occurs _ _ _ _ (h (k, info) (List.mem_cons_self _ _))
    simp only [h0]
    have : ¬ len "" > 0 := by decide
    simp only [this, if_false]
    exact ih (fun e he => h e (List.mem_cons_of_mem _ he))

/-- The scan ends with the key of the first entry that has a pattern in the URL, when that
key is not empty. -/
theorem scanSources_first (shareUrl : String) (pre post : List (String × VideoSourceInfo))
    (k : String) (info : VideoSourceInfo)
    (hpre : ∀ e ∈ pre, ¬ hostPatternOccurs shareUrl e.2)
    (hocc : hostPatternOccurs shareUrl info) (hk : k ≠ "") :
    scanSources shareUrl (pre ++ (k, info) :: post) "" = k := by
  induction pre with
  | nil =>
    simp only [List.nil_append]
    unfold scanSources
    have h0 : scanDomains shareUrl k info.VideoShareUrlDomain "" = k :=
      scanDomains_of_occurs _ _ _ _ hocc
    simp only [h0]
    have : len k > 0 := (len_pos_iff k).mpr hk
    simp only [this, if_true]
  | cons e rest ih =>
    obtain ⟨k0, info0⟩ := e
    simp only [List.cons_append]
    unfold scanSources
    have h0 : scanDomains shareUrl k0 info0.VideoShareUrlDomain "" = "" :=
      scanDomains_of_not_occurs _ _ _ _ (hpre (k0, info0) (List.mem_cons_self _ _))
    simp only [h0]
    have : ¬ len "" > 0 := by decide
    simp only [this, if_false]
    exact ih (fun e he => hpre e (List.mem_cons_of_mem _ he))

/-- In a list of entries with distinct keys, the lookup of a key finds the entry of that
key wherever it stands. -/
theorem lookupEntries_mid (pre post : List (String × VideoSourceInfo)) (k : String)
    (info : VideoSourceInfo) (hnd : ((pre ++ (k, info) :: post).map Prod.fst).Nodup) :
    lookupEntries k (pre ++ (k, info) :: post) = info := by
  induction pre with
  | nil => simp [lookupEntries]
  | cons e rest ih =>
    obtain ⟨k0, info0⟩ := e
    simp only [List.cons_append, List.map_cons, List.nodup_cons] at hnd
    have hne : k0 ≠ k := by
      intro h
      apply hnd.1
      subst h
      simp
    simp only [List.cons_append, lookupEntries, hne, if_false]
    exact ih hnd.2

/-- A key that no entry carries is looked up to the zero value. -/
theorem lookupEntries_absent (source : String) (entries : List (String × VideoSourceInfo))
    (h : ∀ e ∈ entries, e.1 ≠ source) : lookupEntries source entries = VideoSourceInfo.zero := by
  induction entries with
  | nil => rfl
  | cons e rest ih =>
    obtain ⟨k0, info0⟩ := e
    have hne : k0 ≠ source := h (k0, info0) (List.mem_cons_self _ _)
    simp only [lookupEntries, hne, if_false]
    exact ih (fun e he => h e (List.mem_cons_of_mem _ he))

/-- Among entries of which one has a pattern in the URL, there is a first such entry. -/
theorem exists_first_occurrence (shareUrl : String) (entries : List (String × VideoSourceInfo))
    (h : ∃ e ∈ entries, hostPatternOccurs shareUrl e.2) :
    ∃ pre post k info, entries = pre ++ (k, info) :: post ∧
      (∀ e ∈ pre, ¬ hostPatternOccurs shareUrl e.2) ∧ hostPatternOccurs shareUrl info := by
  induction entries with
  | nil => simp at h
  | cons e rest ih =>
    by_cases he : hostPatternOccurs shareUrl e.2
    · exact ⟨[], rest, e.1, e.2, rfl, by simp, he⟩
    · have h2 : ∃ e ∈ rest, hostPatternOccurs shareUrl e.2 := by
        obtain ⟨x, hx, hxo⟩ := h
        rcases List.mem_cons.mp hx with rfl | hx
        · exact absurd hxo he
        · exact ⟨x, hx, hxo⟩
      obtain ⟨pre, post, k, info, heq, hpre, hocc⟩ := ih h2
      refine ⟨e :: pre, post, k, info, by simp [heq], ?_, hocc⟩
      intro x hx
      rcases List.mem_cons.mp hx with rfl | hx
      · exact he
      · exact hpre x hx

/-- The result of `ParseVideoShareUrl` when the first entry with a pattern in the URL has a
key that is not empty. -/
theorem ParseVideoShareUrl_first (w : World) (reg : Registry) (shareUrl : String)
    (pre post : List (String × VideoSourceInfo)) (k : String) (info : VideoSourceInfo)
    (heq : reg.entries = pre ++ (k, info) :: post)
    (hpre : ∀ e ∈ pre, ¬ hostPatternOccurs shareUrl e.2)
    (hocc : hostPatternOccurs shareUrl info) (hk : k ≠ "") :
    ParseVideoShareUrl w reg shareUrl =
      (match info.VideoShareUrlParser with
       | some urlParser => (urlParser shareUrl, [Call.shareUrlParser k shareUrl])
       | none =>
         ((none, some (.text ("source " ++ k ++ " has no video share url parser"))), [])) := by
  have hsrc : scanSources shareUrl reg.entries "" = k := by
    rw [heq]; exact scanSources_first shareUrl pre post k info hpre hocc hk
  have hget : reg.get k = info := by
    unfold Registry.get
    have hnd := reg.nodup
    rw [heq] at hnd ⊢
    exact lookupEntries_mid pre post k info hnd
  have hlen : ¬ len k ≤ 0 := by rw [len_le_zero_iff]; exact hk
  unfold ParseVideoShareUrl
  simp only [hsrc, hlen, if_false, hget]
  cases info.VideoShareUrlParser <;> rfl

/-- The result of `ParseVideoShareUrl` when no entry has a pattern in the URL. -/
theorem ParseVideoShareUrl_fallback (w : World) (reg : Registry) (shareUrl : String)
    (h : ∀ e ∈ reg.entries, ¬ hostPatternOccurs shareUrl e.2) :
    ParseVideoShareUrl w reg shareUrl =
      (kakadownResult (w.httpGet (kakadownURL shareUrl)),
        [Call.httpGet (kakadownURL shareUrl)]) := by
  have hsrc : scanSources shareUrl reg.entries "" = "" := scanSources_none shareUrl _ h
  have hlen : len "" ≤ 0 := by decide
  unfold ParseVideoShareUrl
  simp only [hsrc, hlen, if_true]

/-! ## C1: dispatch of a share URL -/

/-- C1: for every registry and every share URL, the keys of the registry being source names
and so not empty (the empty string is what the scan itself starts from for "no source"),
when an entry has a host pattern that occurs in the URL, `ParseVideoShareUrl` returns what
the share extractor of the first such entry returns on the unchanged URL, that call being
the only one made, or the error that the source has no video share url parser, with no call
made, when that extractor is nil; the remote fallback is called exactly when no registered
pattern occurs in the URL, and its result is then the result of the call. -/
theorem C1_ParseVideoShareUrl_dispatch (w : World) (reg : Registry) (shareUrl : String)
    (hkeys : ∀ e ∈ reg.entries, e.1 ≠ "") :
    (∀ pre post k info, reg.entries = pre ++ (k, info) :: post →
        (∀ e ∈ pre, ¬ hostPatternOccurs shareUrl e.2) → hostPatternOccurs shareUrl info →
        ParseVideoShareUrl w reg shareUrl =
          (match info.VideoShareUrlParser with
           | some urlParser => (urlParser shareUrl, [Call.shareUrlParser k shareUrl])
           | none =>
             ((none, some (.text ("source " ++ k ++ " has no video share url parser"))), []))) ∧
    ((∃ apiURL, Call.httpGet apiURL ∈ (ParseVideoShareUrl w reg shareUrl).2) ↔
        ∀ e ∈ reg.entries, ¬ hostPatternOccurs shareUrl e.2) ∧
    ((∀ e ∈ reg.entries, ¬ hostPatternOccurs shareUrl e.2) →
        ParseVideoShareUrl w reg shareUrl =
          (kakadownResult (w.httpGet (kakadownURL shareUrl)),
            [Call.httpGet (kakadownURL shareUrl)])) := by
  have hfirst : ∀ pre post k info, reg.entries = pre ++ (k, info) :: post →
      (∀ e ∈ pre, ¬ hostPatternOccurs shareUrl e.2) → hostPatternOccurs shareUrl info →
      ParseVideoShareUrl w reg shareUrl =
        (match info.VideoShareUrlParser with
         | some urlParser => (urlParser shareUrl, [Call.shareUrlParser k shareUrl])
         | none =>
           ((none, some (.text ("source " ++ k ++ " has no video share url parser"))), [])) := by
    intro pre post k info heq hpre hocc
    have hk : k ≠ "" := hkeys (k, info) (by rw [heq]; simp)
    exact ParseVideoShareUrl_first w reg shareUrl pre post k info heq hpre hocc hk
  refine ⟨hfirst, ⟨?_, ?_⟩, ParseVideoShareUrl_fallback w reg shareUrl⟩
  · rintro ⟨apiURL, hmem⟩
    by_contra hex
    have hex2 : ∃ e ∈ reg.entries, hostPatternOccurs shareUrl e.2 := by
      by_contra hno
      apply hex
      intro e he ho
      exact hno ⟨e, he, ho⟩
    obtain ⟨pre, post, k, info, heq, hpre, hocc⟩ := exists_first_occurrence shareUrl _ hex2
    rw [hfirst pre post k info heq hpre hocc] at hmem
    cases hp : info.VideoShareUrlParser <;> simp [hp] at hmem
  · intro hno
    rw [ParseVideoShareUrl_fallback w reg shareUrl hno]
    exact ⟨_, List.mem_cons_self _ _⟩

/-- C1 at the registry of `douyin` and `xianyu` and a URL that holds a pattern of
each: the extractor of `douyin`, the earlier entry, is the one called. -/
theorem C1_ParseVideoShareUrl_dispatch_witness :
    (∀ e ∈ (sampleRegistry offline).entries, e.1 ≠ "") ∧
    ParseVideoShareUrl offline (sampleRegistry offline) "https://v.douyin.com/m.tb.cn" =
      (zeroExtractor "https://v.douyin.com/m.tb.cn",
        [Call.shareUrlParser "douyin" "https://v.douyin.com/m.tb.cn"]) :=
  ⟨by decide,
   (C1_ParseVideoShareUrl_dispatch offline (sampleRegistry offline)
      "https://v.douyin.com/m.tb.cn" (by decide)).1 [] [("xianyu", xianyuInfo offline ["m.tb.cn", "douyin"])]
      "douyin" _ rfl (by simp)
      ⟨"v.douyin.com", List.mem_cons_self _ _, (stringsContains_iff _ _).mp (by decide)⟩⟩

/-- With distinct keys, the lookup of the key of an entry yields that entry. -/
theorem Registry.get_of_mem (reg : Registry) (source : String) (info : VideoSourceInfo)
    (h : (source, info) ∈ reg.entries) : reg.get source = info := by
  obtain ⟨pre, post, heq⟩ := List.append_of_mem h
  unfold Registry.get
  have hnd := reg.nodup
  rw [heq] at hnd ⊢
  exact lookupEntries_mid pre post source info hnd

/-- The lookup of a key that no entry carries has no id extractor. -/
theorem Registry.get_of_absent (reg : Registry) (source : String)
    (h : ∀ e ∈ reg.entries, e.1 ≠ source) : reg.get source = VideoSourceInfo.zero :=
  lookupEntries_absent source reg.entries h

/-- The lookup of a key yields the zero value or an entry of the registry. -/
theorem lookupEntries_cases (source : String) (entries : List (String × VideoSourceInfo)) :
    ((∀ e ∈ entries, e.1 ≠ source) ∧ lookupEntries source entries = VideoSourceInfo.zero) ∨
    (source, lookupEntries source entries) ∈ entries := by
  induction entries with
  | nil => left; exact ⟨by simp, rfl⟩
  | cons e rest ih =>
    obtain ⟨k0, info0⟩ := e
    by_cases hk : k0 = source
    · right; subst hk; simp [lookupEntries]
    · simp only [lookupEntries, hk, if_false]
      rcases ih with ⟨h1, h2⟩ | h
      · left
        refine ⟨?_, h2⟩
        intro e he
        rcases List.mem_cons.mp he with rfl | he
        · exact hk
        · exact h1 e he
      · right; exact List.mem_cons_of_mem _ h

theorem noIdParser_iff (reg : Registry) (source : String) :
    noIdParser reg source ↔ (reg.get source).VideoIdParser = none := by
  constructor
  · rintro (h | ⟨info, hmem, hnone⟩)
    · rw [Registry.get_of_absent reg source h]; rfl
    · rw [Registry.get_of_mem reg source info hmem]; exact hnone
  · intro h
    rcases lookupEntries_cases source reg.entries with ⟨h1, _⟩ | hmem
    · exact Or.inl h1
    · exact Or.inr ⟨_, hmem, h⟩

/-! ## C2: `ParseVideoId` -/

/-- C2: `ParseVideoId` fails with `video id or source is empty`, calling no extractor, when
the source or the id is empty; otherwise it fails with `has no video id parser`, calling no
extractor, when no entry carries the source or the entry of the source has a nil id
extractor; and otherwise it returns the result of the id extractor of the entry of the
source on the id, that call being the only one made. -/
theorem C2_ParseVideoId (reg : Registry) (source videoId : String) :
    ((source = "" ∨ videoId = "") →
        ParseVideoId reg source videoId =
          ((none, some (.text "video id or source is empty")), [])) ∧
    (source ≠ "" → videoId ≠ "" → noIdParser reg source →
        ParseVideoId reg source videoId =
          ((none, some (.text ("source " ++ source ++ " has no video id parser"))), [])) ∧
    (∀ info idParser, source ≠ "" → videoId ≠ "" → (source, info) ∈ reg.entries →
        info.VideoIdParser = some idParser →
        ParseVideoId reg source videoId = (idParser videoId, [Call.idParser source videoId])) := by
  refine ⟨?_, ?_, ?_⟩
  · intro h
    have hc : len videoId ≤ 0 ∨ len source ≤ 0 := by
      rw [len_le_zero_iff, len_le_zero_iff]; exact h.symm
    unfold ParseVideoId
    simp only [hc, if_true]
  · intro hs hv hno
    have hc : ¬ (len videoId ≤ 0 ∨ len source ≤ 0) := by
      rw [len_le_zero_iff, len_le_zero_iff]; tauto
    have hp := (noIdParser_iff reg source).mp hno
    unfold ParseVideoId
    simp only [hc, if_false, hp]
  · intro info idParser hs hv hmem hp
    have hc : ¬ (len videoId ≤ 0 ∨ len source ≤ 0) := by
      rw [len_le_zero_iff, len_le_zero_iff]; tauto
    have hg := Registry.get_of_mem reg source info hmem
    unfold ParseVideoId
    simp only [hc, if_false, hg, hp]

/-- C2 at the registry of `douyin` and `xianyu`: an empty id, an unknown source, and the id
extractor of `xianyu`. -/
theorem C2_ParseVideoId_witness :
    ParseVideoId (sampleRegistry offline) "xianyu" "" =
      ((none, some (.text "video id or source is empty")), []) ∧
    ParseVideoId (sampleRegistry offline) "kuaishou" "42" =
      ((none, some (.text "source kuaishou has no video id parser")), []) ∧
    ParseVideoId (sampleRegistry offline) "xianyu" "42" =
      (xianyu.parseVideoID "42", [Call.idParser "xianyu" "42"]) :=
  ⟨(C2_ParseVideoId (sampleRegistry offline) "xianyu" "").1 (Or.inr rfl),
   (C2_ParseVideoId (sampleRegistry offline) "kuaishou" "42").2.1 (by decide) (by decide)
      (Or.inl (by decide)),
   (C2_ParseVideoId (sampleRegistry offline) "xianyu" "42").2.2
      (xianyuInfo offline ["m.tb.cn", "douyin"]) xianyu.parseVideoID (by decide) (by decide)
      (by simp [sampleRegistry]) rfl⟩

/-! ## The batch parser -/

/-- The map after the goroutines have run in some order: an id of the order holds the item
of that id, every other key holds what it held before. -/
theorem runWorkers_map (reg : Registry) (source : String) (order : List String)
    (st : ParseMap × List Call) (k : String) :
    (runWorkers reg source order st).1 k =
      if k ∈ order then some (itemOf reg source k) else st.1 k := by
  induction order generalizing st with
  | nil => simp [runWorkers]
  | cons v rest ih =>
    unfold runWorkers
    simp only []
    rw [ih]
    by_cases hk : k ∈ rest
    · simp [hk]
    · by_cases hv : k = v
      · subst hv
        simp [hk, ParseMap.set, itemOf]
      · simp [hk, hv, ParseMap.set]

/-- The result of `BatchParseVideoId` when its checks pass. -/
theorem BatchParseVideoId_ok (reg : Registry) (source : String) (videoIds : List String)
    (sched : Schedule videoIds) (idParser : String → Ret) (hsrc : source ≠ "")
    (hids : videoIds ≠ []) (hp : (reg.get source).VideoIdParser = some idParser) :
    BatchParseVideoId reg source videoIds sched =
      ((some (runWorkers reg source sched.val (fun _ => none, [])).1, none),
        (runWorkers reg source sched.val (fun _ => none, [])).2) := by
  have hc : ¬ (videoIds.length ≤ 0 ∨ len source ≤ 0) := by
    rw [len_le_zero_iff, Nat.le_zero, List.length_eq_zero]; tauto
  unfold BatchParseVideoId
  simp only [hc, if_false, hp]

/-- The result of `BatchParseVideoId` when a check fails. -/
theorem BatchParseVideoId_error (reg : Registry) (source : String) (videoIds : List String)
    (sched : Schedule videoIds)
    (h : source = "" ∨ videoIds = [] ∨ (reg.get source).VideoIdParser = none) :
    (BatchParseVideoId reg source videoIds sched).1.1 = none ∧
    (BatchParseVideoId reg source videoIds sched).1.2 ≠ none ∧
    (BatchParseVideoId reg source videoIds sched).2 = [] := by
  unfold BatchParseVideoId
  by_cases hc : videoIds.length ≤ 0 ∨ len source ≤ 0
  · rw [if_pos hc]
    simp
  · have hc2 := hc
    rw [len_le_zero_iff, Nat.le_zero, List.length_eq_zero] at hc2
    have hp : (reg.get source).VideoIdParser = none := by tauto
    rw [if_neg hc, hp]
    simp

/-! ## C9: the checks of `BatchParseVideoId` -/

/-- C9: `BatchParseVideoId` returns an error and a nil map, having called no extractor,
exactly when the source is empty, or the list of ids is empty, or no entry carries the
source or the entry of the source has a nil id extractor; in every other case it returns a
map and no error. -/
theorem C9_BatchParseVideoId_checks (reg : Registry) (source : String)
    (videoIds : List String) (sched : Schedule videoIds) :
    (((BatchParseVideoId reg source videoIds sched).1.1 = none ∧
        (BatchParseVideoId reg source videoIds sched).1.2 ≠ none ∧
        (BatchParseVideoId reg source videoIds sched).2 = []) ↔
      (source = "" ∨ videoIds = [] ∨ noIdParser reg source)) ∧
    (¬ (source = "" ∨ videoIds = [] ∨ noIdParser reg source) →
      (BatchParseVideoId reg source videoIds sched).1.1 ≠ none ∧
      (BatchParseVideoId reg source videoIds sched).1.2 = none) := by
  have hok : ¬ (source = "" ∨ videoIds = [] ∨ noIdParser reg source) →
      (BatchParseVideoId reg source videoIds sched).1.1 ≠ none ∧
      (BatchParseVideoId reg source videoIds sched).1.2 = none := by
    intro hn
    rw [noIdParser_iff] at hn
    cases hp : (reg.get source).VideoIdParser with
    | none => exact absurd (Or.inr (Or.inr hp)) hn
    | some idParser =>
      rw [BatchParseVideoId_ok reg source videoIds sched idParser (by tauto) (by tauto) hp]
      simp
  refine ⟨⟨?_, ?_⟩, hok⟩
  · intro h
    by_contra hn
    exact (hok hn).1 h.1
  · intro h
    rw [noIdParser_iff] at h
    exact BatchParseVideoId_error reg source videoIds sched h

/-- C9 at the registry of `douyin` and `xianyu`: an unknown source gives a nil map, an
error and no call; the source `xianyu` gives a map and no error. -/
theorem C9_BatchParseVideoId_checks_witness :
    ((BatchParseVideoId (sampleRegistry offline) "kuaishou" ["a", "", "c"] sampleSchedule).1.1 =
        none ∧
      (BatchParseVideoId (sampleRegistry offline) "kuaishou" ["a", "", "c"] sampleSchedule).1.2 ≠
        none ∧
      (BatchParseVideoId (sampleRegistry offline) "kuaishou" ["a", "", "c"] sampleSchedule).2 =
        []) ∧
    ((BatchParseVideoId (sampleRegistry offline) "xianyu" ["a", "", "c"] sampleSchedule).1.1 ≠
        none ∧
      (BatchParseVideoId (sampleRegistry offline) "xianyu" ["a", "", "c"] sampleSchedule).1.2 =
        none) :=
  ⟨(C9_BatchParseVideoId_checks (sampleRegistry offline) "kuaishou" ["a", "", "c"]
      sampleSchedule).1.mpr (Or.inr (Or.inr (Or.inl (by decide)))),
   (C9_BatchParseVideoId_checks (sampleRegistry offline) "xianyu" ["a", "", "c"]
      sampleSchedule).2 (by
        rintro (h | h | h | ⟨info, hmem, hp⟩)
        · exact absurd h (by decide)
        · exact absurd h (by decide)
        · exact h ("xianyu", xianyuInfo offline ["m.tb.cn", "douyin"])
            (by simp [sampleRegistry]) rfl
        · simp only [sampleRegistry, List.mem_cons, Prod.mk.injEq, List.mem_singleton] at hmem
          rcases hmem with ⟨h1, _⟩ | ⟨_, h2⟩ | h3
          · exact absurd h1 (by decide)
          · subst h2
            simp [xianyuInfo] at hp
          · simp at h3)⟩

/-! ## C7: the map of `BatchParseVideoId` -/

/-- C7: for a source that is not empty and whose entry has an id extractor, and a list of
ids that is not empty, `BatchParseVideoId` returns, whatever the order of the goroutines, a
map and no error; the keys of the map are exactly the ids of the list, and each id holds
the pair that `ParseVideoId` returns for the source and that id. -/
theorem C7_BatchParseVideoId_map (reg : Registry) (source : String) (videoIds : List String)
    (sched : Schedule videoIds) (info : VideoSourceInfo) (idParser : String → Ret)
    (hsrc : source ≠ "") (hmem : (source, info) ∈ reg.entries)
    (hp : info.VideoIdParser = some idParser) (hids : videoIds ≠ []) :
    ∃ parseMap, (BatchParseVideoId reg source videoIds sched).1 = (some parseMap, none) ∧
      (∀ k, (parseMap k).isSome ↔ k ∈ videoIds) ∧
      (∀ videoId ∈ videoIds, parseMap videoId =
        some { ParseInfo := (ParseVideoId reg source videoId).1.1,
               Error := (ParseVideoId reg source videoId).1.2 }) := by
  have hg : (reg.get source).VideoIdParser = some idParser := by
    rw [Registry.get_of_mem reg source info hmem]; exact hp
  refine ⟨(runWorkers reg source sched.val (fun _ => none, [])).1, ?_, ?_, ?_⟩
  · rw [BatchParseVideoId_ok reg source videoIds sched idParser hsrc hids hg]
  · intro k
    rw [runWorkers_map]
    have hperm : k ∈ sched.val ↔ k ∈ videoIds := sched.property.mem_iff
    by_cases hk : k ∈ sched.val
    · simp [hk, hperm.mp hk]
    · have hk2 : k ∉ videoIds := fun h => hk (hperm.mpr h)
      simp [hk, hk2]
  · intro videoId hv
    rw [runWorkers_map]
    have hv2 : videoId ∈ sched.val := sched.property.mem_iff.mpr hv
    simp [hv2, itemOf]

/-- C7 at the source `xianyu`, whose id extractor fails on every id, and the ids `a`, the
empty id and `c`, written in the order `c`, `a`, empty. -/
theorem C7_BatchParseVideoId_map_witness :
    ∃ parseMap,
      (BatchParseVideoId (sampleRegistry offline) "xianyu" ["a", "", "c"] sampleSchedule).1 =
        (some parseMap, none) ∧
      (∀ k, (parseMap k).isSome ↔ k ∈ ["a", "", "c"]) ∧
      (∀ videoId ∈ ["a", "", "c"], parseMap videoId =
        some { ParseInfo := (ParseVideoId (sampleRegistry offline) "xianyu" videoId).1.1,
               Error := (ParseVideoId (sampleRegistry offline) "xianyu" videoId).1.2 }) :=
  C7_BatchParseVideoId_map (sampleRegistry offline) "xianyu" ["a", "", "c"] sampleSchedule
    (xianyuInfo offline ["m.tb.cn", "douyin"]) xianyu.parseVideoID (by decide)
    (by simp [sampleRegistry]) rfl (by decide)

/-- `ParseVideoId` on the empty id. -/
theorem ParseVideoId_empty_id (reg : Registry) (source : String) :
    ParseVideoId reg source "" = ((none, some (.text "video id or source is empty")), []) := by
  have hc : len "" ≤ 0 ∨ len source ≤ 0 := Or.inl (by decide)
  unfold ParseVideoId
  simp only [hc, if_true]

/-! ## C8: the items of the map -/

/-- `ParseVideoId` on a source and an id that are not empty, the lookup of the source
yielding an id extractor. -/
theorem ParseVideoId_call (reg : Registry) (source videoId : String) (idParser : String → Ret)
    (hs : source ≠ "") (hv : videoId ≠ "")
    (hp : (reg.get source).VideoIdParser = some idParser) :
    ParseVideoId reg source videoId = (idParser videoId, [Call.idParser source videoId]) := by
  have hc : ¬ (len videoId ≤ 0 ∨ len source ≤ 0) := by
    rw [len_le_zero_iff, len_le_zero_iff]; tauto
  unfold ParseVideoId
  simp only [hc, if_false, hp]

/-- What a map that `BatchParseVideoId` returns holds under each key: under an id of the
list, the pair of the check of `ParseVideoId` when the id is empty and the pair of the id
extractor otherwise; nothing under any other key. -/
theorem BatchParseVideoId_lookup (reg : Registry) (source : String) (videoIds : List String)
    (sched : Schedule videoIds) (parseMap : ParseMap) (info : VideoSourceInfo)
    (idParser : String → Ret)
    (hmap : (BatchParseVideoId reg source videoIds sched).1.1 = some parseMap)
    (hmem : (source, info) ∈ reg.entries) (hp : info.VideoIdParser = some idParser)
    (k : String) :
    parseMap k =
      if k ∈ videoIds then
        some (if k = "" then
                { ParseInfo := none, Error := some (.text "video id or source is empty") }
              else { ParseInfo := (idParser k).1, Error := (idParser k).2 })
      else none := by
  have hg : (reg.get source).VideoIdParser = some idParser := by
    rw [Registry.get_of_mem reg source info hmem]; exact hp
  have hcond : ¬ (source = "" ∨ videoIds = [] ∨ (reg.get source).VideoIdParser = none) := by
    intro h
    have := (BatchParseVideoId_error reg source videoIds sched h).1
    rw [hmap] at this
    exact Option.noConfusion this
  have hs : source ≠ "" := fun h => hcond (Or.inl h)
  rw [BatchParseVideoId_ok reg source videoIds sched idParser hs (by tauto) hg] at hmap
  have hm : parseMap = (runWorkers reg source sched.val (fun _ => none, [])).1 :=
    (Option.some.inj hmap).symm
  rw [hm, runWorkers_map]
  have hperm : k ∈ sched.val ↔ k ∈ videoIds := sched.property.mem_iff
  by_cases hin : k ∈ videoIds
  · simp only [hperm.mpr hin, hin, if_true]
    by_cases hk : k = ""
    · subst hk
      simp [itemOf, ParseVideoId_empty_id reg source]
    · simp only [hk, if_false, itemOf, ParseVideoId_call reg source k idParser hs hk hg]
  · have hin2 : k ∉ sched.val := fun h => hin (hperm.mp h)
    simp only [hin2, hin, if_false]

/-- C8, as stated, fails: the id extractor of the source returns neither a record nor an
error on the id `a` and both on the id `b`, and the map that `BatchParseVideoId` returns
holds under `a` an item with both components nil and under `b` an item with both components
populated. -/
theorem C8_counterexample :
    ∃ parseMap itemA itemB,
      (BatchParseVideoId looseRegistry "src" ["a", "b"] looseSchedule).1 =
        (some parseMap, none) ∧
      parseMap "a" = some itemA ∧ itemA.ParseInfo = none ∧ itemA.Error = none ∧
      ¬ itemA.exactlyOne ∧
      parseMap "b" = some itemB ∧ itemB.ParseInfo ≠ none ∧ itemB.Error ≠ none ∧
      ¬ itemB.exactlyOne :=
  ⟨(runWorkers looseRegistry "src" ["a", "b"] (fun _ => none, [])).1,
   { ParseInfo := none, Error := none },
   { ParseInfo := some VideoParseInfo.zero, Error := some (.text "incomplete") },
   rfl, by decide, rfl, rfl, by simp [BatchParseItem.exactlyOne],
   by decide, by simp, by simp, by simp [BatchParseItem.exactlyOne]⟩

/-- C8, amended: an item of a map that `BatchParseVideoId` returns holds the pair that
`ParseVideoId` returned for its id: under the empty id a nil record and the error
`video id or source is empty`, under any other id of the list the pair that the id extractor
of the source returned on that id. Such an item has exactly one of `ParseInfo` and `Error`
populated exactly when the pair of the extractor has, and every item of the map has exactly
one populated exactly when the extractor returns such a pair on every id of the list that is
not empty. The id extractor of `xianyu` returns on every id a nil record and an error, so
every item of a map returned for a source with that extractor has exactly one populated. -/
theorem C8_BatchParseItem_exactlyOne :
    (∀ videoId, Ret.exactlyOne (xianyu.parseVideoID videoId)) ∧
    (∀ (reg : Registry) (source : String) (videoIds : List String)
        (sched : Schedule videoIds) (parseMap : ParseMap) (info : VideoSourceInfo),
      (BatchParseVideoId reg source videoIds sched).1.1 = some parseMap →
      (source, info) ∈ reg.entries → info.VideoIdParser = some xianyu.parseVideoID →
      (∀ k item, parseMap k = some item → item.exactlyOne) ∧
      ("" ∈ videoIds → parseMap "" =
        some { ParseInfo := none, Error := some (.text "video id or source is empty") })) ∧
    (∀ (reg : Registry) (source : String) (videoIds : List String)
        (sched : Schedule videoIds) (parseMap : ParseMap) (info : VideoSourceInfo)
        (idParser : String → Ret),
      (BatchParseVideoId reg source videoIds sched).1.1 = some parseMap →
      (source, info) ∈ reg.entries → info.VideoIdParser = some idParser →
      ("" ∈ videoIds → parseMap "" =
        some { ParseInfo := none, Error := some (.text "video id or source is empty") }) ∧
      (∀ k ∈ videoIds, k ≠ "" →
        parseMap k = some { ParseInfo := (idParser k).1, Error := (idParser k).2 }) ∧
      (∀ k item, parseMap k = some item → k ≠ "" →
        (item.exactlyOne ↔ Ret.exactlyOne (idParser k))) ∧
      ((∀ k item, parseMap k = some item → item.exactlyOne) ↔
        ∀ k ∈ videoIds, k ≠ "" → Ret.exactlyOne (idParser k))) := by
  have hx : ∀ videoId, Ret.exactlyOne (xianyu.parseVideoID videoId) :=
    fun _ => Or.inr ⟨rfl, rfl⟩
  have hgen : ∀ (reg : Registry) (source : String) (videoIds : List String)
      (sched : Schedule videoIds) (parseMap : ParseMap) (info : VideoSourceInfo)
      (idParser : String → Ret),
      (BatchParseVideoId reg source videoIds sched).1.1 = some parseMap →
      (source, info) ∈ reg.entries → info.VideoIdParser = some idParser →
      ("" ∈ videoIds → parseMap "" =
        some { ParseInfo := none, Error := some (.text "video id or source is empty") }) ∧
      (∀ k ∈ videoIds, k ≠ "" →
        parseMap k = some { ParseInfo := (idParser k).1, Error := (idParser k).2 }) ∧
      (∀ k item, parseMap k = some item → k ≠ "" →
        (item.exactlyOne ↔ Ret.exactlyOne (idParser k))) ∧
      ((∀ k item, parseMap k = some item → item.exactlyOne) ↔
        ∀ k ∈ videoIds, k ≠ "" → Ret.exactlyOne (idParser k)) := by
    intro reg source videoIds sched parseMap info idParser hmap hmem hp
    have hl := BatchParseVideoId_lookup reg source videoIds sched parseMap info idParser
      hmap hmem hp
    have h1 : "" ∈ videoIds → parseMap "" =
        some { ParseInfo := none, Error := some (.text "video id or source is empty") } := by
      intro hin
      rw [hl ""]
      simp only [hin, if_true]
    have h2 : ∀ k ∈ videoIds, k ≠ "" →
        parseMap k = some { ParseInfo := (idParser k).1, Error := (idParser k).2 } := by
      intro k hin hk
      rw [hl k]
      simp only [hin, hk, if_true, if_false]
    have h3 : ∀ k item, parseMap k = some item → k ≠ "" →
        (item.exactlyOne ↔ Ret.exactlyOne (idParser k)) := by
      intro k item hitem hk
      by_cases hin : k ∈ videoIds
      · rw [h2 k hin hk] at hitem
        rw [← Option.some.inj hitem]
        exact Iff.rfl
      · rw [hl k] at hitem
        simp only [hin, if_false] at hitem
        exact Option.noConfusion hitem
    refine ⟨h1, h2, h3, ?_, ?_⟩
    · intro hall k hin hk
      exact (h3 k _ (h2 k hin hk) hk).mp (hall k _ (h2 k hin hk))
    · intro hall k item hitem
      by_cases hk : k = ""
      · subst hk
        by_cases hin : "" ∈ videoIds
        · rw [h1 hin] at hitem
          rw [← Option.some.inj hitem]
          exact Or.inr ⟨rfl, rfl⟩
        · rw [hl ""] at hitem
          simp only [hin, if_false] at hitem
          exact Option.noConfusion hitem
      · by_cases hin : k ∈ videoIds
        · exact (h3 k item hitem hk).mpr (hall k hin hk)
        · rw [hl k] at hitem
          simp only [hin, if_false] at hitem
          exact Option.noConfusion hitem
  refine ⟨hx, ?_, hgen⟩
  intro reg source videoIds sched parseMap info hmap hmem hp
  obtain ⟨h1, _, _, h4⟩ := hgen reg source videoIds sched parseMap info xianyu.parseVideoID
    hmap hmem hp
  exact ⟨h4.mpr (fun k _ _ => hx k), h1⟩

/-- C8, amended, at the sixth scenario of the spec (the ids `a`, `b` and `c`, of which the
extractor fails on `b`, written in the order `b`, `c`, `a`): `a` and `c` hold a record and no
error, `b` holds an error and no record; and at the source `xianyu` with the ids `a`, the
empty id and `c`. -/
theorem C8_BatchParseItem_exactlyOne_witness :
    (∃ parseMap,
      (BatchParseVideoId scenarioRegistry "src" ["a", "b", "c"] scenarioSchedule).1.1 =
        some parseMap ∧
      (∀ k item, parseMap k = some item → item.exactlyOne) ∧
      parseMap "a" = some { ParseInfo := (scenarioExtractor "a").1, Error := none } ∧
      (scenarioExtractor "a").1 ≠ none ∧
      parseMap "b" = some { ParseInfo := none, Error := some (.text "extraction failed") } ∧
      parseMap "c" = some { ParseInfo := (scenarioExtractor "c").1, Error := none } ∧
      (scenarioExtractor "c").1 ≠ none) ∧
    (∃ parseMap,
      (BatchParseVideoId (sampleRegistry offline) "xianyu" ["a", "", "c"] sampleSchedule).1.1 =
        some parseMap ∧
      (∀ k item, parseMap k = some item → item.exactlyOne) ∧
      parseMap "" =
        some { ParseInfo := none, Error := some (.text "video id or source is empty") } ∧
      parseMap "a" = some { ParseInfo := none, Error := some (.text "not implemented") }) :=
  ⟨⟨(runWorkers scenarioRegistry "src" ["b", "c", "a"] (fun _ => none, [])).1, rfl,
    (C8_BatchParseItem_exactlyOne.2.2 scenarioRegistry "src" ["a", "b", "c"] scenarioSchedule _
      { VideoShareUrlDomain := ["src.test"], VideoShareUrlParser := none,
        VideoIdParser := some scenarioExtractor } scenarioExtractor rfl
      (by simp [scenarioRegistry]) rfl).2.2.2.mpr (by
        intro k hk _
        simp only [List.mem_cons, List.mem_singleton, List.not_mem_nil, or_false] at hk
        rcases hk with rfl | rfl | rfl
        · exact Or.inl ⟨rfl, rfl⟩
        · exact Or.inr ⟨rfl, rfl⟩
        · exact Or.inl ⟨rfl, rfl⟩),
    by decide, by decide, by decide, by decide, by decide⟩,
   ⟨(runWorkers (sampleRegistry offline) "xianyu" ["c", "a", ""] (fun _ => none, [])).1, rfl,
    (C8_BatchParseItem_exactlyOne.2.1 (sampleRegistry offline) "xianyu" ["a", "", "c"]
      sampleSchedule _ (xianyuInfo offline ["m.tb.cn", "douyin"]) rfl
      (by simp [sampleRegistry]) rfl).1,
    by decide, by decide⟩⟩

/-! ## The remote fallback -/

/-- The result of the fallback branch on a body that decodes as an envelope. -/
theorem kakadownResult_envelope (body : Body) (resp : KakaDownResponse)
    (hdec : unmarshalKakaDownResponse body = .ok resp) :
    kakadownResult (.body body) =
      (match resp.Data with
       | some data =>
         (some { Title := data.Title, VideoUrl := data.VideoUrl, MusicUrl := data.MusicUrl,
                 CoverUrl := data.CoverUrl,
                 Images := data.Images.map (fun img => ({ Url := img } : ImgInfo)),
                 Author := { Uid := data.Author.Uid, Name := data.Author.Name,
                             Avatar := data.Author.Avatar } }, none)
       | none => (none, some (.text "kakadown response data is nil"))) := by
  unfold kakadownResult
  simp only [hdec]

/-! ## C4: translation of the envelope -/

/-- C4: on the remote fallback path, when the body decodes as an envelope whose data is not
null, `ParseVideoShareUrl` succeeds, and the record has the title, the three URLs and the
author triple of the data, and as many images as the data, the image at each index holding
the string of the data at that index. -/
theorem C4_fallback_translates_data (w : World) (reg : Registry) (shareUrl : String)
    (body : Body) (resp : KakaDownResponse) (data : KakaDownData)
    (hno : ∀ e ∈ reg.entries, ¬ hostPatternOccurs shareUrl e.2)
    (hget : w.httpGet (kakadownURL shareUrl) = .body body)
    (hdec : unmarshalKakaDownResponse body = .ok resp) (hdata : resp.Data = some data) :
    ∃ info, (ParseVideoShareUrl w reg shareUrl).1 = (some info, none) ∧
      info.Title = data.Title ∧ info.VideoUrl = data.VideoUrl ∧
      info.MusicUrl = data.MusicUrl ∧ info.CoverUrl = data.CoverUrl ∧
      info.Author.Uid = data.Author.Uid ∧ info.Author.Name = data.Author.Name ∧
      info.Author.Avatar = data.Author.Avatar ∧
      info.Images.length = data.Images.length ∧
      ∀ (i : Nat) (h1 : i < info.Images.length) (h2 : i < data.Images.length),
        (info.Images.get ⟨i, h1⟩).Url = data.Images.get ⟨i, h2⟩ := by
  rw [ParseVideoShareUrl_fallback w reg shareUrl hno, hget,
    kakadownResult_envelope body resp hdec, hdata]
  refine ⟨_, rfl, rfl, rfl, rfl, rfl, rfl, rfl, rfl, ?_, ?_⟩
  · simp
  · intro i h1 h2
    simp

/-- C4 at the second scenario of the spec. -/
theorem C4_fallback_translates_data_witness :
    ∃ info, (ParseVideoShareUrl (serviceWorld envelopeBody) emptyRegistry
        "https://example.test/x").1 = (some info, none) ∧
      info.Title = "T" ∧ info.VideoUrl = "v" ∧ info.MusicUrl = "m" ∧ info.CoverUrl = "c" ∧
      info.Author.Uid = "u1" ∧ info.Author.Name = "N" ∧ info.Author.Avatar = "a" ∧
      info.Images.length = ["i1", "i2"].length ∧
      ∀ (i : Nat) (h1 : i < info.Images.length) (h2 : i < ["i1", "i2"].length),
        (info.Images.get ⟨i, h1⟩).Url = ["i1", "i2"].get ⟨i, h2⟩ :=
  C4_fallback_translates_data (serviceWorld envelopeBody) emptyRegistry
    "https://example.test/x" envelopeBody
    ⟨0, "", some envelopeData⟩ envelopeData
    (by simp [emptyRegistry]) rfl rfl rfl

/-! ## C5: only the data of the envelope decides -/

/-- C5: on the remote fallback path, when the body decodes as an envelope, the call fails
exactly when the data is null, the error being then `kakadown response data is nil`; and a
second body that decodes as an envelope with the same data, whatever its code and msg, gives
the same result and the same calls. -/
theorem C5_fallback_data_decides (w : World) (reg : Registry) (shareUrl : String)
    (body : Body) (resp : KakaDownResponse)
    (hno : ∀ e ∈ reg.entries, ¬ hostPatternOccurs shareUrl e.2)
    (hget : w.httpGet (kakadownURL shareUrl) = .body body)
    (hdec : unmarshalKakaDownResponse body = .ok resp) :
    ((ParseVideoShareUrl w reg shareUrl).1.2 ≠ none ↔ resp.Data = none) ∧
    ((ParseVideoShareUrl w reg shareUrl).1.1 = none ↔ resp.Data = none) ∧
    (resp.Data = none → (ParseVideoShareUrl w reg shareUrl).1 =
        (none, some (.text "kakadown response data is nil"))) ∧
    (∀ (w2 : World) (body2 : Body) (resp2 : KakaDownResponse),
        w2.httpGet (kakadownURL shareUrl) = .body body2 →
        unmarshalKakaDownResponse body2 = .ok resp2 → resp2.Data = resp.Data →
        ParseVideoShareUrl w2 reg shareUrl = ParseVideoShareUrl w reg shareUrl) := by
  have hres := ParseVideoShareUrl_fallback w reg shareUrl hno
  rw [hget, kakadownResult_envelope body resp hdec] at hres
  refine ⟨?_, ?_, ?_, ?_⟩
  · rw [hres]
    cases resp.Data <;> simp
  · rw [hres]
    cases resp.Data <;> simp
  · intro hnone
    rw [hres, hnone]
  · intro w2 body2 resp2 hget2 hdec2 hsame
    rw [hres, ParseVideoShareUrl_fallback w2 reg shareUrl hno, hget2,
      kakadownResult_envelope body2 resp2 hdec2, hsame]

/-- C5 at the body `{"code":0,"msg":"ok","data":null}`, compared with the body
`{"code":404,"msg":"not found","data":null}` of the third scenario of the spec. -/
theorem C5_fallback_data_decides_witness :
    (ParseVideoShareUrl (serviceWorld nullDataBody) emptyRegistry "https://example.test/x").1 =
      (none, some (.text "kakadown response data is nil")) ∧
    ParseVideoShareUrl (serviceWorld notFoundBody) emptyRegistry "https://example.test/x" =
      ParseVideoShareUrl (serviceWorld nullDataBody) emptyRegistry "https://example.test/x" :=
  ⟨(C5_fallback_data_decides (serviceWorld nullDataBody) emptyRegistry "https://example.test/x"
      nullDataBody { Code := 0, Msg := "ok", Data := none } (by simp [emptyRegistry]) rfl
      rfl).2.2.1 rfl,
   (C5_fallback_data_decides (serviceWorld nullDataBody) emptyRegistry "https://example.test/x"
      nullDataBody { Code := 0, Msg := "ok", Data := none } (by simp [emptyRegistry]) rfl
      rfl).2.2.2 (serviceWorld notFoundBody) notFoundBody
      { Code := 404, Msg := "not found", Data := none } rfl rfl rfl⟩

/-! ## C6: a body of the legacy service -/

/-- C6, evaluated: a body that is a `VideoParseInfo` written as JSON decodes as a
`VideoParseInfo`, and it decodes as an envelope as well, none of its keys naming a field of
the envelope, with nil data; `ParseVideoShareUrl` therefore never tries the legacy decode
and fails with `kakadown response data is nil`. -/
theorem C6_legacy_body_fails :
    unmarshalVideoParseInfo legacyBody = .ok legacyRecord ∧
    unmarshalKakaDownResponse legacyBody = .ok { Code := 0, Msg := "", Data := none } ∧
    ParseVideoShareUrl (serviceWorld legacyBody) emptyRegistry "https://example.test/x" =
      ((none, some (.text "kakadown response data is nil")),
        [Call.httpGet
          "https://kakadown.com/video/share/url/parse?url=https%3A%2F%2Fexample.test%2Fx"]) := by
  refine ⟨rfl, rfl, ?_⟩
  decide

/-- An object of which no key names a field of the envelope decodes as the zero envelope,
whose data is nil. -/
theorem unmarshalKakaDownResponse_foreign_keys (members : List (String × Json))
    (h : ∀ kv ∈ members, fieldOf ["code", "msg", "data"] kv.1 = none) :
    unmarshalKakaDownResponse (.json (.obj members)) =
      .ok { Code := 0, Msg := "", Data := none } := by
  have hfold : ∀ (ms : List (String × Json)) (st : KakaDownResponse × Option JsonError),
      (∀ kv ∈ ms, fieldOf ["code", "msg", "data"] kv.1 = none) →
      ms.foldl decodeResponseMember st = st := by
    intro ms
    induction ms with
    | nil => intro st _; rfl
    | cons kv rest ih =>
      intro st hms
      have h1 : decodeResponseMember st kv = st := by
        unfold decodeResponseMember
        rw [hms kv (List.mem_cons_self _ _)]
      rw [List.foldl_cons, h1]
      exact ih st (fun kv hkv => hms kv (List.mem_cons_of_mem _ hkv))
  unfold unmarshalKakaDownResponse
  simp only [hfold members _ h]

/-! ## The xianyu extractor -/

/-- The loops of `parseItemUrl` append the texts of the elements that are not empty. -/
theorem appendImages_eq (key : String) (elems : List Result) (images : List ImgInfo) :
    appendImages key elems images = images ++ (textsOf key elems).map ImgInfo.mk := by
  induction elems generalizing images with
  | nil => simp [appendImages, textsOf]
  | cons img rest ih =>
    unfold appendImages
    by_cases h : Result.String (Result.Get img [key]) ≠ ""
    · simp only [h, if_true]
      rw [ih]
      simp [textsOf, h]
    · simp only [h, if_false]
      rw [ih]
      simp [textsOf, h]

/-- No text kept by `textsOf` is empty. -/
theorem textsOf_ne_empty (key : String) (elems : List Result) :
    ∀ s ∈ textsOf key elems, s ≠ "" := by
  intro s hs
  unfold textsOf at hs
  have := (List.mem_filter.mp hs).2
  simpa using this

/-- The title and the author that `parseItemUrl` reads from the answer of the item API. -/
theorem parseItemUrl_images (w : World) (itemUrl itemId : String) (doc itemDO : Json)
    (hid : w.urlQueryId itemUrl = .ok itemId) (hne : itemId ≠ "")
    (hpost : w.restyPost itemApiURL (itemRequestBody itemId) = .ok doc)
    (hret : stringsHasPrefix (Result.String (gjsonGet ["ret", "0"] doc)) "SUCCESS" = true)
    (hitem : gjsonGet ["data", "itemDO"] doc = some itemDO) :
    xianyu.parseItemUrl w itemUrl =
      (let images := (textsOf "url" (Result.Array (gjsonGet ["imageInfos"] itemDO))).map
          ImgInfo.mk
       let images := if images.length = 0 then
          images ++ (textsOf "image" (Result.Array
            (gjsonGet ["shareData", "contentParams", "mainParams", "images"] itemDO))).map
              ImgInfo.mk
         else images
       if images.length = 0 then (none, some (.text "no images found for this item"))
       else (some { Title := Result.String (gjsonGet ["title"] itemDO),
                    Author :=
                      if Result.Exists (gjsonGet ["data", "sellerDO"] doc) then
                        { Uid := "",
                          Name := Result.String
                            (Result.Get (gjsonGet ["data", "sellerDO"] doc) ["nick"]),
                          Avatar := Result.String
                            (Result.Get (gjsonGet ["data", "sellerDO"] doc) ["portraitUrl"]) }
                      else { Uid := "", Name := "", Avatar := "" },
                    VideoUrl := "", MusicUrl := "",
                    CoverUrl := "", Images := images }, none)) := by
  unfold xianyu.parseItemUrl
  simp only [hid, hne, if_false, hpost, Result.Get, hret, hitem, Result.Exists,
    Option.isSome_some, Bool.not_true, Bool.false_eq_true, appendImages_eq, List.nil_append]

/-- Whether a pattern of an entry occurs in the URL, by evaluation. -/
theorem hostPatternOccurs_iff (shareUrl : String) (info : VideoSourceInfo) :
    hostPatternOccurs shareUrl info ↔
      info.VideoShareUrlDomain.any (stringsContains shareUrl) = true := by
  unfold hostPatternOccurs
  simp only [List.any_eq_true, stringsContains_iff]

/-- The result of `parseItemUrl` once the item API has answered with a document whose
`ret.0` starts with `SUCCESS` and whose `data.itemDO` exists, by the two lists of texts. -/
theorem parseItemUrl_cases (w : World) (itemUrl itemId : String) (doc itemDO : Json)
    (hid : w.urlQueryId itemUrl = .ok itemId) (hne : itemId ≠ "")
    (hpost : w.restyPost itemApiURL (itemRequestBody itemId) = .ok doc)
    (hret : stringsHasPrefix (Result.String (gjsonGet ["ret", "0"] doc)) "SUCCESS" = true)
    (hitem : gjsonGet ["data", "itemDO"] doc = some itemDO)
    (primary secondary : List String)
    (hprimary : textsOf "url" (Result.Array (gjsonGet ["imageInfos"] itemDO)) = primary)
    (hsecondary : textsOf "image" (Result.Array
      (gjsonGet ["shareData", "contentParams", "mainParams", "images"] itemDO)) = secondary) :
    (primary ≠ [] → ∃ info, xianyu.parseItemUrl w itemUrl = (some info, none) ∧
        info.Images = primary.map ImgInfo.mk) ∧
    (primary = [] → secondary ≠ [] → ∃ info, xianyu.parseItemUrl w itemUrl = (some info, none) ∧
        info.Images = secondary.map ImgInfo.mk) ∧
    (primary = [] → secondary = [] →
        xianyu.parseItemUrl w itemUrl = (none, some (.text "no images found for this item"))) := by
  have heq := parseItemUrl_images w itemUrl itemId doc itemDO hid hne hpost hret hitem
  rw [hprimary, hsecondary] at heq
  refine ⟨?_, ?_, ?_⟩
  · intro hp
    have h1 : ¬ (List.map ImgInfo.mk primary).length = 0 := by simpa using hp
    simp only [h1, if_false] at heq
    exact ⟨_, heq, rfl⟩
  · intro hp hs
    subst hp
    have h1 : ¬ (List.map ImgInfo.mk secondary).length = 0 := by simpa using hs
    simp only [List.map_nil, List.length_nil, if_true, List.nil_append, h1, if_false] at heq
    exact ⟨_, heq, rfl⟩
  · intro hp hs
    subst hp; subst hs
    simpa using heq

/-- A record that `parseItemUrl` returns has images, and comes without error. -/
theorem parseItemUrl_success (w : World) (itemUrl : String) (info : VideoParseInfo)
    (h : (xianyu.parseItemUrl w itemUrl).1 = some info) :
    info.Images ≠ [] ∧ (xianyu.parseItemUrl w itemUrl).2 = none := by
  cases hid : w.urlQueryId itemUrl with
  | error e => simp [xianyu.parseItemUrl, hid] at h
  | ok itemId =>
    by_cases hne : itemId = ""
    · simp [xianyu.parseItemUrl, hid, hne] at h
    · cases hpost : w.restyPost itemApiURL (itemRequestBody itemId) with
      | error e => simp [xianyu.parseItemUrl, hid, hne, hpost] at h
      | ok doc =>
        by_cases hret :
            stringsHasPrefix (Result.String (gjsonGet ["ret", "0"] doc)) "SUCCESS" = true
        · cases hitem : gjsonGet ["data", "itemDO"] doc with
          | none =>
            simp [xianyu.parseItemUrl, hid, hne, hpost, hret, hitem, Result.Get,
              Result.Exists] at h
          | some itemDO =>
            obtain ⟨c1, c2, c3⟩ := parseItemUrl_cases w itemUrl itemId doc itemDO hid hne hpost
              hret hitem _ _ rfl rfl
            by_cases hp : textsOf "url" (Result.Array (gjsonGet ["imageInfos"] itemDO)) = []
            · by_cases hs : textsOf "image" (Result.Array
                (gjsonGet ["shareData", "contentParams", "mainParams", "images"] itemDO)) = []
              · rw [c3 hp hs] at h
                simp at h
              · obtain ⟨info2, hres, himg⟩ := c2 hp hs
                rw [hres] at h ⊢
                simp only [Option.some.injEq] at h
                subst h
                rw [himg]
                exact ⟨by simpa using hs, rfl⟩
            · obtain ⟨info2, hres, himg⟩ := c1 hp
              rw [hres] at h ⊢
              simp only [Option.some.injEq] at h
              subst h
              rw [himg]
              exact ⟨by simpa using hp, rfl⟩
        · simp [xianyu.parseItemUrl, hid, hne, hpost, hret, Result.Get] at h

/-- A record that `parseShareUrl` returns has images, and comes without error. -/
theorem parseShareUrl_success (w : World) (shareUrl : String) (info : VideoParseInfo)
    (h : (xianyu.parseShareUrl w shareUrl).1 = some info) :
    info.Images ≠ [] ∧ (xianyu.parseShareUrl w shareUrl).2 = none := by
  unfold xianyu.parseShareUrl at h ⊢
  split at h
  · simp at h
  · split at h
    · simp at h
    · split at h
      · simp at h
      · rename_i hc
        simp only [hc, if_false]
        exact parseItemUrl_success w _ info h

/-! ## C10: the images of the xianyu extractor -/

/-- C10: when the item API answers with a document whose `ret.0` starts with `SUCCESS` and
whose `data.itemDO` exists, `parseItemUrl` returns as images the texts `url` of the elements
of `imageInfos` that are not empty, in their order, when there is one; otherwise the texts
`image` of the elements of `shareData.contentParams.mainParams.images` that are not empty,
in their order, when there is one; it fails with `no images found for this item` exactly
when there is none of either; and no image of a returned record has an empty `Url`. -/
theorem C10_parseItemUrl_images (w : World) (itemUrl itemId : String) (doc itemDO : Json)
    (hid : w.urlQueryId itemUrl = .ok itemId) (hne : itemId ≠ "")
    (hpost : w.restyPost itemApiURL (itemRequestBody itemId) = .ok doc)
    (hret : stringsHasPrefix (Result.String (gjsonGet ["ret", "0"] doc)) "SUCCESS" = true)
    (hitem : gjsonGet ["data", "itemDO"] doc = some itemDO) :
    (textsOf "url" (Result.Array (gjsonGet ["imageInfos"] itemDO)) ≠ [] →
      ∃ info, xianyu.parseItemUrl w itemUrl = (some info, none) ∧
        info.Images =
          (textsOf "url" (Result.Array (gjsonGet ["imageInfos"] itemDO))).map ImgInfo.mk) ∧
    (textsOf "url" (Result.Array (gjsonGet ["imageInfos"] itemDO)) = [] →
      textsOf "image" (Result.Array
        (gjsonGet ["shareData", "contentParams", "mainParams", "images"] itemDO)) ≠ [] →
      ∃ info, xianyu.parseItemUrl w itemUrl = (some info, none) ∧
        info.Images =
          (textsOf "image" (Result.Array
            (gjsonGet ["shareData", "contentParams", "mainParams", "images"] itemDO))).map
              ImgInfo.mk) ∧
    (xianyu.parseItemUrl w itemUrl = (none, some (.text "no images found for this item")) ↔
      textsOf "url" (Result.Array (gjsonGet ["imageInfos"] itemDO)) = [] ∧
      textsOf "image" (Result.Array
        (gjsonGet ["shareData", "contentParams", "mainParams", "images"] itemDO)) = []) ∧
    (∀ info, (xianyu.parseItemUrl w itemUrl).1 = some info →
      ∀ img ∈ info.Images, img.Url ≠ "") := by
  obtain ⟨c1, c2, c3⟩ := parseItemUrl_cases w itemUrl itemId doc itemDO hid hne hpost
    hret hitem _ _ rfl rfl
  have hne1 := textsOf_ne_empty "url" (Result.Array (gjsonGet ["imageInfos"] itemDO))
  have hne2 := textsOf_ne_empty "image" (Result.Array
    (gjsonGet ["shareData", "contentParams", "mainParams", "images"] itemDO))
  refine ⟨c1, c2, ⟨?_, fun h => c3 h.1 h.2⟩, ?_⟩
  · intro h
    by_contra hn
    by_cases hp : textsOf "url" (Result.Array (gjsonGet ["imageInfos"] itemDO)) = []
    · by_cases hs : textsOf "image" (Result.Array
        (gjsonGet ["shareData", "contentParams", "mainParams", "images"] itemDO)) = []
      · exact hn ⟨hp, hs⟩
      · obtain ⟨info2, hres, _⟩ := c2 hp hs
        rw [hres] at h
        simp at h
    · obtain ⟨info2, hres, _⟩ := c1 hp
      rw [hres] at h
      simp at h
  · intro info hinfo img himg
    by_cases hp : textsOf "url" (Result.Array (gjsonGet ["imageInfos"] itemDO)) = []
    · by_cases hs : textsOf "image" (Result.Array
        (gjsonGet ["shareData", "contentParams", "mainParams", "images"] itemDO)) = []
      · rw [c3 hp hs] at hinfo
        simp at hinfo
      · obtain ⟨info2, hres, himg2⟩ := c2 hp hs
        rw [hres] at hinfo
        simp only [Option.some.injEq] at hinfo
        subst hinfo
        rw [himg2] at himg
        obtain ⟨s, hs1, hs2⟩ := List.mem_map.mp himg
        subst hs2
        exact hne2 s hs1
    · obtain ⟨info2, hres, himg2⟩ := c1 hp
      rw [hres] at hinfo
      simp only [Option.some.injEq] at hinfo
      subst hinfo
      rw [himg2] at himg
      obtain ⟨s, hs1, hs2⟩ := List.mem_map.mp himg
      subst hs2
      exact hne1 s hs1

/-- C10 at the fifth scenario of the spec: of three image infos the second has an empty
url, and the record holds the first and the third. -/
theorem C10_parseItemUrl_images_witness :
    ∃ info, xianyu.parseItemUrl (itemWorld scenarioItemDoc)
        "https://www.goofish.com/item?id=42" = (some info, none) ∧
      info.Images = [⟨"https://i/1"⟩, ⟨"https://i/2"⟩] :=
  (C10_parseItemUrl_images (itemWorld scenarioItemDoc) "https://www.goofish.com/item?id=42"
    "42" scenarioItemDoc scenarioItemDO rfl (by decide) rfl (by decide) rfl).1 (by decide)

/-! ## C3: media in a successful result -/

/-- C3, as stated, fails: the fallback service answers `{"code":0,"msg":"ok","data":{}}`,
and `ParseVideoShareUrl` succeeds with a record whose `VideoUrl` is empty and whose `Images`
is empty. -/
theorem C3_counterexample :
    ∃ info, (ParseVideoShareUrl (serviceWorld emptyDataBody) emptyRegistry
        "https://example.test/x").1 = (some info, none) ∧
      info.VideoUrl = "" ∧ info.Images = [] :=
  ⟨VideoParseInfo.zero, by decide, rfl, rfl⟩

/-- C3, amended: a record that the xianyu extractor returns has a non-empty `Images`, and so
has a record that `ParseVideoShareUrl` returns when the first entry with a pattern in the
URL is the entry of xianyu; on the remote fallback path, when the body decodes as an
envelope with data, the returned record has `VideoUrl` non-empty or `Images` non-empty
exactly when the data has `video_url` non-empty or `images` non-empty. -/
theorem C3_success_media :
    (∀ (w : World) (shareUrl : String) (info : VideoParseInfo),
      (xianyu.parseShareUrl w shareUrl).1 = some info → info.Images ≠ []) ∧
    (∀ (w : World) (reg : Registry) (shareUrl : String)
        (pre post : List (String × VideoSourceInfo)) (k : String) (domains : List String)
        (info : VideoParseInfo),
      reg.entries = pre ++ (k, xianyuInfo w domains) :: post → k ≠ "" →
      (∀ e ∈ pre, ¬ hostPatternOccurs shareUrl e.2) →
      hostPatternOccurs shareUrl (xianyuInfo w domains) →
      (ParseVideoShareUrl w reg shareUrl).1.1 = some info → info.Images ≠ []) ∧
    (∀ (w : World) (reg : Registry) (shareUrl : String) (body : Body)
        (resp : KakaDownResponse) (data : KakaDownData) (info : VideoParseInfo),
      (∀ e ∈ reg.entries, ¬ hostPatternOccurs shareUrl e.2) →
      w.httpGet (kakadownURL shareUrl) = .body body →
      unmarshalKakaDownResponse body = .ok resp → resp.Data = some data →
      (ParseVideoShareUrl w reg shareUrl).1.1 = some info →
      ((info.VideoUrl ≠ "" ∨ info.Images ≠ []) ↔ (data.VideoUrl ≠ "" ∨ data.Images ≠ []))) := by
  refine ⟨?_, ?_, ?_⟩
  · intro w shareUrl info h
    exact (parseShareUrl_success w shareUrl info h).1
  · intro w reg shareUrl pre post k domains info heq hk hpre hocc h
    rw [ParseVideoShareUrl_first w reg shareUrl pre post k _ heq hpre hocc hk] at h
    exact (parseShareUrl_success w shareUrl info h).1
  · intro w reg shareUrl body resp data info hno hget hdec hdata h
    rw [ParseVideoShareUrl_fallback w reg shareUrl hno, hget,
      kakadownResult_envelope body resp hdec, hdata] at h
    simp only [Option.some.injEq] at h
    subst h
    simp

/-- C3, amended, at the fifth scenario of the spec, reached through the registry of `douyin`
and `xianyu`, and at the second scenario of the spec. -/
theorem C3_success_media_witness :
    ((ParseVideoShareUrl (itemWorld scenarioItemDoc)
        (sampleRegistry (itemWorld scenarioItemDoc)) "https://m.tb.cn/x").1.1 =
          some scenarioRecord ∧ scenarioRecord.Images ≠ []) ∧
    ((ParseVideoShareUrl (serviceWorld envelopeBody) emptyRegistry
        "https://example.test/x").1.1 = some envelopeRecord ∧
      ((envelopeRecord.VideoUrl ≠ "" ∨ envelopeRecord.Images ≠ []) ↔
        (envelopeData.VideoUrl ≠ "" ∨ envelopeData.Images ≠ []))) :=
  ⟨⟨by decide, C3_success_media.2.1 (itemWorld scenarioItemDoc)
      (sampleRegistry (itemWorld scenarioItemDoc)) "https://m.tb.cn/x"
      [("douyin", { VideoShareUrlDomain := ["v.douyin.com", "www.iesdouyin.com"],
                    VideoShareUrlParser := some zeroExtractor,
                    VideoIdParser := some zeroExtractor })] [] "xianyu" ["m.tb.cn", "douyin"]
      scenarioRecord rfl (by decide)
      (by
        intro e he
        simp only [List.mem_singleton] at he
        subst he
        rw [hostPatternOccurs_iff]
        decide)
      (by rw [hostPatternOccurs_iff]; decide) (by decide)⟩,
   ⟨by decide, C3_success_media.2.2 (serviceWorld envelopeBody) emptyRegistry
      "https://example.test/x" envelopeBody ⟨0, "", some envelopeData⟩ envelopeData
      envelopeRecord (by simp [emptyRegistry]) rfl rfl rfl (by decide)⟩⟩

/-- The xianyu extractor at the fifth scenario of the spec, from the share URL on. -/
theorem parseShareUrl_scenario :
    xianyu.parseShareUrl (itemWorld scenarioItemDoc) "https://m.tb.cn/x" =
      (some scenarioRecord, none) := by
  decide

/-- The xianyu extractor when `imageInfos` is empty: the images of the share data, the empty
one left out. -/
theorem parseItemUrl_share_images :
    xianyu.parseItemUrl (itemWorld shareImagesDoc) "https://www.goofish.com/item?id=42" =
      (some { Title := "X", Author := ⟨"", "", ""⟩, VideoUrl := "", MusicUrl := "",
              CoverUrl := "", Images := [⟨"https://s/1"⟩] }, none) := by
  decide

end ParseVideo
